import Mathlib

/-!
Verification model of the MMKV storage engine (`src/Linux/src/MMKV.cpp`).

The engine state is embedded shallowly: the in-memory dictionary is an
association list of byte strings, the mapped data file is a byte list
(`region` holds the bytes from offset 4 onward, `legacyActualSize` the
4-byte legacy header), and the sidecar meta page is mirrored by
`metaFileContent`.  File-system effects (`fstat`, `ftruncate`, `mmap`,
random IV generation, the two error-strategy callbacks) are supplied by an
`FsEnv` record of external outcomes.  Library primitives that live outside
`src/` (CRC32, the AES stream cipher, MD5, the protobuf varint codec) are
modelled from the spec as executable stand-ins; only their determinism and
streaming structure is used.  The bounded mutual recursion between
`loadFromFile`, `clearAll` and `fullWriteback` is expressed with an
explicit fuel parameter; at fuel zero the functions return their input
unchanged.
-/

set_option linter.unusedVariables false

namespace MMKVModel

/-- Bytes of a file or of a key/value buffer (each entry morally in 0..255). -/
abbrev Bytes := List Nat

/-- Page size constant `DEFAULT_MMAP_SIZE` (build-time default 4096). -/
def DEFAULT_MMAP_SIZE : Nat := 4096

/-- Size of a fixed 32-bit field, `Fixed32Size = pbFixed32Size(0) = 4`. -/
def Fixed32Size : Nat := 4

/-- Constant `KeepSequence = false` from the source. -/
def KeepSequence : Bool := false

/-- Constant `IncreaseSequence = true` from the source. -/
def IncreaseSequence : Bool := true

/-- Meta file format version `MMKVVersionSequence`. -/
def MMKVVersionSequence : Nat := 1

/-- Meta file format version `MMKVVersionActualSize`. -/
def MMKVVersionActualSize : Nat := 2

/-- Meta file format version `MMKVVersionRandomIV`. -/
def MMKVVersionRandomIV : Nat := 3

/-- Fuel-bounded body of the varint encoder; the fuel only serves
structural termination and `varintEncode` always supplies enough. -/
def varintEncodeAux : Nat → Nat → List Nat
  | 0, n => [n % 128]
  | fuel + 1, n =>
      if n < 128 then [n] else (n % 128 + 128) :: varintEncodeAux fuel (n / 128)

/-- Modelled from the spec: the protobuf-like varint encoder
(`PBUtility.h`, outside `src/`): little-endian 7-bit groups, high bit set
on every byte except the last. -/
def varintEncode (n : Nat) : List Nat := varintEncodeAux n n

/-- Modelled from the spec: `pbRawVarint32Size`, the byte length of the
varint encoding of `n`. -/
def pbRawVarint32Size (n : Nat) : Nat := (varintEncode n).length

/-- Modelled from the spec: the CRC32 primitive (`crc32/Checksum.h`,
outside `src/`).  A deterministic streaming digest with the same
`crc32(seed, bytes)` interface; only determinism and the left-fold
streaming structure are relied on. -/
def zlibCrc32 (seed : Nat) (bytes : Bytes) : Nat :=
  bytes.foldl (fun c b => (c * 131 + b + 17) % 4294967296) seed

/-- Internal state of the stream cipher: the (truncated) key, the current
IV and the stream position. -/
structure AESCryptState where
  key : Bytes
  vector : Nat
  pos : Nat
deriving DecidableEq

/-- Modelled from the spec: the AES-CFB stream cipher primitive (outside
`src/`).  A keyed byte-stream transform whose ciphertext length equals the
plaintext length and whose stream position advances by the length
processed. -/
def cryptEncrypt (c : AESCryptState) (bytes : Bytes) : Bytes × AESCryptState :=
  (bytes.mapIdx (fun i b => (b + c.key.foldl (· + ·) 0 + c.vector + c.pos + i) % 256),
   { c with pos := c.pos + bytes.length })

/-- Modelled from the spec: decryption inverse of `cryptEncrypt`. -/
def cryptDecrypt (c : AESCryptState) (bytes : Bytes) : Bytes × AESCryptState :=
  (bytes.mapIdx (fun i b =>
      (b + 256 - (c.key.foldl (· + ·) 0 + c.vector + c.pos + i) % 256) % 256),
   { c with pos := c.pos + bytes.length })

/-- Constructor model of `AESCrypt(ptr, len)`: the key is stored truncated
to `AES_KEY_LEN = 16` bytes, IV and stream position start at zero. -/
def newCrypter (cryptKey : Bytes) : AESCryptState :=
  { key := cryptKey.take 16, vector := 0, pos := 0 }

/-- The in-memory dictionary `m_dic`: an association list from key bytes to
value bytes with unique keys (mirroring `std::unordered_map`). -/
abbrev Dic := List (Bytes × Bytes)

/-- Lookup in the dictionary (`m_dic.find`). -/
def dicFind : Dic → Bytes → Option Bytes
  | [], _ => none
  | (k', v) :: rest, k => if k' = k then some v else dicFind rest k

/-- Erase a key from the dictionary (`m_dic.erase`). -/
def dicErase : Dic → Bytes → Dic
  | [], _ => []
  | (k', v) :: rest, k => if k' = k then dicErase rest k else (k', v) :: dicErase rest k

/-- Insert-or-assign (`m_dic[key] = value`). -/
def dicInsert : Dic → Bytes → Bytes → Dic
  | [], k, v => [(k, v)]
  | (k', v') :: rest, k, v =>
      if k' = k then (k, v) :: rest else (k', v') :: dicInsert rest k v

/-- Modelled from the spec: the wire format of one record,
`varint(keyLen) | keyBytes | varint(valueLen) | valueBytes` (spec section 3). -/
def encodeRecord (k v : Bytes) : Bytes :=
  varintEncode k.length ++ k ++ varintEncode v.length ++ v

/-- Modelled from the spec: `MiniPBCoder::encodeDataWithObject` on the
dictionary (outside `src/`) — the concatenated record stream. -/
def encodeMap (d : Dic) : Bytes :=
  d.foldr (fun kv acc => encodeRecord kv.1 kv.2 ++ acc) []

/-- Read one varint from the front of a byte list. -/
def readVarintAux : Bytes → Nat → Nat → Option (Nat × Bytes)
  | [], _, _ => none
  | b :: rest, shift, acc =>
      if b < 128 then some (acc + b * 2 ^ shift, rest)
      else readVarintAux rest (shift + 7) (acc + (b - 128) * 2 ^ shift)

/-- Read one varint from the front of a byte list (entry point). -/
def readVarint (bytes : Bytes) : Option (Nat × Bytes) := readVarintAux bytes 0 0

/-- Modelled from the spec: the decode loop of `MiniPBCoder::decodeMap`
(outside `src/`): read records per the spec wire format and merge into the
dictionary; a zero-length value is a tombstone that erases its key. -/
def decodeLoop : Nat → Bytes → Dic → Dic
  | 0, _, d => d
  | fuel + 1, bytes, d =>
      match readVarint bytes with
      | none => d
      | some (klen, r1) =>
          let k := r1.take klen
          let r2 := r1.drop klen
          match readVarint r2 with
          | none => d
          | some (vlen, r3) =>
              let v := r3.take vlen
              let r4 := r3.drop vlen
              if vlen = 0 then decodeLoop fuel r4 (dicErase d k)
              else decodeLoop fuel r4 (dicInsert d k v)

/-- Modelled from the spec: `MiniPBCoder::decodeMap` — merge the record
stream `bytes` into dictionary `d`. -/
def decodeMap (d : Dic) (bytes : Bytes) : Dic := decodeLoop bytes.length bytes d

/-- Overwrite `region` starting at byte offset `pos` with `bytes`. -/
def writeBytesAt (region : Bytes) (pos : Nat) (bytes : Bytes) : Bytes :=
  region.take pos ++ bytes ++ region.drop (pos + bytes.length)

/-- Result of an error-strategy callback (`OnErrorDiscard` / `OnErrorRecover`). -/
inductive ErrorStrategy where
  | OnErrorDiscard
  | OnErrorRecover
deriving DecidableEq

/-- In-memory mirror of the meta file header (`MMKVMetaInfo`). -/
structure MMKVMetaInfo where
  m_crcDigest : Nat
  m_actualSize : Nat
  m_version : Nat
  m_sequence : Nat
  m_vector : Nat
  lastActualSize : Nat
  lastCRCDigest : Nat
deriving DecidableEq

/-- State of one MMKV engine instance, mirroring the member variables of
class `MMKV` that the modelled operations read or write.  `region` holds
the data file bytes from offset 4 onward and `legacyActualSize` the 4-byte
legacy header at offset 0; `metaFileContent` is the current content of the
mapped meta page and `metaFileValid` models `m_metaFile.isFileValid()`;
`outputPos`/`outputSize` model the `CodedOutputData` append cursor and
`outputValid` whether `m_output` is non-null. -/
structure MMKVState where
  m_dic : Dic
  m_size : Nat
  m_actualSize : Nat
  m_crcDigest : Nat
  m_metaInfo : MMKVMetaInfo
  metaFileContent : MMKVMetaInfo
  metaFileValid : Bool
  m_needLoadFromFile : Bool
  m_hasFullWriteback : Bool
  m_isAshmem : Bool
  m_isInterProcess : Bool
  m_crypter : Option AESCryptState
  m_fdValid : Bool
  m_ptrValid : Bool
  region : Bytes
  legacyActualSize : Nat
  outputValid : Bool
  outputSize : Nat
  outputPos : Nat
deriving DecidableEq

/-- External outcomes of file-system calls and host callbacks consumed by
one operation: the `fstat` size, success of `open`/`ftruncate`/
`zeroFillFile`/`mmap`, the random IV produced by `fillRandomIV`, and the
answers of the two error-strategy callbacks. -/
structure FsEnv where
  statSize : Nat
  openOk : Bool
  ftruncateOk : Bool
  zeroFillOk : Bool
  mmapOk : Bool
  newIV : Nat
  crcFailStrategy : ErrorStrategy
  lengthErrorStrategy : ErrorStrategy
deriving DecidableEq

/-- `MMKV::isFileValid()`:
`m_fd >= 0 && m_size > 0 && m_output && m_ptr && m_ptr != MAP_FAILED`. -/
def isFileValid (s : MMKVState) : Bool :=
  s.m_fdValid && decide (0 < s.m_size) && s.outputValid && s.m_ptrValid

/-- Free space of the append cursor, `m_output->spaceLeft()`. -/
def spaceLeft (s : MMKVState) : Nat := s.outputSize - s.outputPos

/-- `MMKV::oldStyleWriteActualSize`: store the size into `m_actualSize` and
the 4-byte legacy header at offset 0. -/
def oldStyleWriteActualSize (s : MMKVState) (actualSize : Nat) : MMKVState :=
  { s with m_actualSize := actualSize, legacyActualSize := actualSize % 2 ^ 32 }

/-- `MMKV::writeActualSize(actualSize, crcDigest, iv, increaseSequence)`:
update the legacy header, then (when the meta file is valid) the in-memory
meta mirror — bumping the format version as required, storing the IV,
incrementing the sequence and mirroring the last-confirmed pair when
`increaseSequence` — and write the header back to the meta page, fully on a
structural change and via the CRC-and-size-only fast path otherwise. -/
def writeActualSize (s0 : MMKVState) (actualSize crcDigest : Nat) (iv : Option Nat)
    (increaseSequence : Bool) : Bool × MMKVState :=
  let s := oldStyleWriteActualSize s0 actualSize
  if s.metaFileValid = true then
    let mi1 := { s.m_metaInfo with m_actualSize := actualSize, m_crcDigest := crcDigest }
    let vBump := decide (mi1.m_version < MMKVVersionSequence)
    let mi2 := if mi1.m_version < MMKVVersionSequence
      then { mi1 with m_version := MMKVVersionSequence } else mi1
    let mi3 := match iv with
      | some v => { mi2 with m_vector := v, m_version := max mi2.m_version MMKVVersionRandomIV }
      | none => mi2
    let mi4 := if increaseSequence = true
      then { mi3 with m_sequence := mi3.m_sequence + 1,
                      lastActualSize := actualSize, lastCRCDigest := crcDigest,
                      m_version := max mi3.m_version MMKVVersionActualSize }
      else mi3
    let needsFullWrite := vBump || iv.isSome || increaseSequence
    let s1 := { s with m_actualSize := actualSize, m_crcDigest := crcDigest, m_metaInfo := mi4 }
    if needsFullWrite = true then (true, { s1 with metaFileContent := mi4 })
    else (true, { s1 with metaFileContent :=
      { s1.metaFileContent with m_crcDigest := mi4.m_crcDigest,
                                m_actualSize := mi4.m_actualSize } })
  else (false, s)

/-- `MMKV::readActualSize()`: the meta value at version `ActualSize` and
newer, the legacy header before that. -/
def readActualSize (s : MMKVState) : Nat :=
  if MMKVVersionActualSize ≤ s.m_metaInfo.m_version then s.m_metaInfo.m_actualSize
  else s.legacyActualSize

/-- `MMKV::checkFileCRCValid(actualSize, crcDigest)`: recompute the digest
of the first `actualSize` record bytes into `m_crcDigest` and compare. -/
def checkFileCRCValid (s : MMKVState) (actualSize crcDigest : Nat) : Bool × MMKVState :=
  if s.m_ptrValid = true then
    let c := zlibCrc32 0 (s.region.take actualSize)
    (decide (c = crcDigest), { s with m_crcDigest := c })
  else (false, s)

/-- `MMKV::recaculateCRCDigestWithIV(iv)`: recompute the digest of the
whole record stream from scratch and commit it with `IncreaseSequence`. -/
def recaculateCRCDigestWithIV (s : MMKVState) (iv : Option Nat) : MMKVState :=
  if s.m_ptrValid = true then
    let c := zlibCrc32 0 (s.region.take s.m_actualSize)
    (writeActualSize { s with m_crcDigest := c } s.m_actualSize c iv IncreaseSequence).2
  else s

/-- `MMKV::updateCRCDigest(ptr, length)`: extend the rolling digest with the
just-appended ciphertext bytes and commit size and digest with
`KeepSequence`. -/
def updateCRCDigest (s : MMKVState) (bytes : Bytes) : MMKVState :=
  let s1 := { s with m_crcDigest := zlibCrc32 s.m_crcDigest bytes }
  (writeActualSize s1 s1.m_actualSize s1.m_crcDigest none KeepSequence).2

/-- `MMKV::clearMemoryState()`: mark the store as needing a reload, drop
the dictionary, reset the cipher from the stored IV, destroy the append
cursor, unmap and close the data file, and zero size bookkeeping. -/
def clearMemoryState (s : MMKVState) : MMKVState :=
  if s.m_needLoadFromFile = true then s
  else
    let s1 := { s with m_needLoadFromFile := true, m_dic := [], m_hasFullWriteback := false }
    let s2 := match s1.m_crypter with
      | some c =>
          if MMKVVersionRandomIV ≤ s1.m_metaInfo.m_version then
            { s1 with m_crypter := some { c with vector := s1.m_metaInfo.m_vector, pos := 0 } }
          else { s1 with m_crypter := some { c with vector := 0, pos := 0 } }
      | none => s1
    let s3 := { s2 with outputValid := false, outputSize := 0, outputPos := 0 }
    let s4 := if s3.m_isAshmem = true then s3
      else { s3 with m_ptrValid := false, m_fdValid := false }
    { s4 with m_size := 0, m_actualSize := 0,
              m_metaInfo := { s4.m_metaInfo with m_crcDigest := 0 } }

/-- `MMKV::doFullWriteBack(allData)`: optionally re-seed the cipher with a
fresh IV and encrypt the encoded dictionary, rewrite the record region from
offset 4 with it, set `m_actualSize` to its length, recompute the digest
with `IncreaseSequence`, and mark the writeback done. -/
def doFullWriteBack (env : FsEnv) (s : MMKVState) (allData0 : Bytes) : Bool × MMKVState :=
  let p := match s.m_crypter with
    | some c =>
        let c1 := { c with vector := env.newIV, pos := 0 }
        let e := cryptEncrypt c1 allData0
        (e.1, { s with m_crypter := some e.2 })
    | none => (allData0, s)
  let allData := p.1
  let s1 := p.2
  let s2 := { s1 with outputValid := true, outputSize := s1.m_size - Fixed32Size,
                      outputPos := allData.length,
                      region := writeBytesAt s1.region 0 allData,
                      m_actualSize := allData.length }
  let s3 := recaculateCRCDigestWithIV s2
      (if s2.m_crypter.isSome then some env.newIV else none)
  (true, { s3 with m_hasFullWriteback := true })

/-- Extra headroom `ItemSizeHolderSize = 4` reserved when the dictionary is
empty. -/
def ItemSizeHolderSize : Nat := 4

/-- Fuel-bounded body of the doubling loop; since a positive size gains at
least one per doubling, `t + 1 - size` rounds of fuel always suffice. -/
def growLoopAux : Nat → Nat → Nat → Nat
  | 0, _, size => size
  | fuel + 1, t, size =>
      if 0 < size ∧ size ≤ t then growLoopAux fuel t (size * 2) else size

/-- The doubling loop of `MMKV::ensureMemorySize`:
`do { m_size *= 2; } while (lenNeeded + futureUsage >= m_size);` — this is
the loop condition after the first doubling; the positivity guard makes the
function total (the source always runs it with a positive size). -/
def growLoop (t : Nat) (size : Nat) : Nat := growLoopAux (t + 1 - size) t size

/-- Complete grow computation: one mandatory doubling followed by
`growLoop`. -/
def growSize (t : Nat) (size : Nat) : Nat := growLoop t (size * 2)

/-- `MMKV::ensureMemorySize(newSize)`: fail on an invalid file; reserve the
item-size placeholder when the dictionary is empty; when the cursor lacks
room (or the dictionary is empty) re-encode the dictionary and either fail
(anonymous memory over its fixed size), grow the file per the doubling
policy (rolling back on `ftruncate`/`zeroFillFile` failure and re-mapping),
and finish with a full rewrite of the encoded dictionary. -/
def ensureMemorySize (env : FsEnv) (s : MMKVState) (newSize0 : Nat) : Bool × MMKVState :=
  if isFileValid s = false then (false, s)
  else
    let newSize := if s.m_dic = [] then newSize0 + ItemSizeHolderSize else newSize0
    if spaceLeft s ≤ newSize ∨ s.m_dic = [] then
      let data := encodeMap s.m_dic
      let lenNeeded := data.length + Fixed32Size + newSize
      if s.m_isAshmem = true then
        if s.m_size < lenNeeded then (false, s) else doFullWriteBack env s data
      else
        let avgItemSize := lenNeeded / max 1 s.m_dic.length
        let futureUsage := avgItemSize * max 8 ((s.m_dic.length + 1) / 2)
        if s.m_size ≤ lenNeeded ∨ s.m_size ≤ lenNeeded + futureUsage then
          let oldSize := s.m_size
          let s1 := { s with m_size := growSize (lenNeeded + futureUsage) s.m_size }
          if env.ftruncateOk = false then (false, { s1 with m_size := oldSize })
          else if env.zeroFillOk = false then (false, { s1 with m_size := oldSize })
          else
            let s2 := { s1 with region := s1.region ++ List.replicate (s1.m_size - oldSize) 0,
                                m_ptrValid := env.mmapOk }
            if isFileValid s2 = false then (false, s2)
            else doFullWriteBack env s2 data
        else doFullWriteBack env s data
    else (true, s)

/-- `MMKV::appendDataWithKey(data, key)`: compute the record size, ensure
room, write the length-prefixed record at the append cursor, encrypt it in
place when a cipher is configured, advance `m_actualSize` and extend the
rolling digest. -/
def appendDataWithKey (env : FsEnv) (s : MMKVState) (data key : Bytes) : Bool × MMKVState :=
  let size := key.length + pbRawVarint32Size key.length
      + data.length + pbRawVarint32Size data.length
  let r := ensureMemorySize env s size
  if r.1 = false ∨ isFileValid r.2 = false then (false, r.2)
  else
    let s1 := r.2
    let rec0 := encodeRecord key data
    let s2 := { s1 with region := writeBytesAt s1.region s1.outputPos rec0,
                        outputPos := s1.outputPos + rec0.length }
    let q := match s2.m_crypter with
      | some c =>
          let e := cryptEncrypt c rec0
          (e.1, { s2 with m_crypter := some e.2,
                          region := writeBytesAt s2.region s2.m_actualSize e.1 })
      | none => (rec0, s2)
    let s3 := { q.2 with m_actualSize := q.2.m_actualSize + size }
    (true, updateCRCDigest s3 q.1)

/-- Result of `MMKV::checkDataValid(loadFromFile, needFullWriteback)`:
the two out-parameters, the updated state, and whether each of the two
error-strategy callbacks was consulted. -/
structure CheckDataResult where
  load : Bool
  needFullWriteback : Bool
  state : MMKVState
  consultedCRCFail : Bool
  consultedLengthError : Bool
deriving DecidableEq

/-- Tail of `checkLastConfirmedInfo`: try the last-confirmed
`(actualSize, crcDigest)` snapshot and commit it with `KeepSequence` when
its CRC matches. -/
def checkLastConfirmedAux (s : MMKVState) : Bool × MMKVState :=
  let lastActualSize := s.m_metaInfo.lastActualSize
  if lastActualSize < s.m_size ∧ lastActualSize + Fixed32Size ≤ s.m_size then
    let lastCRCDigest := s.m_metaInfo.lastCRCDigest
    let r := checkFileCRCValid s lastActualSize lastCRCDigest
    if r.1 = true then
      (true, (writeActualSize r.2 lastActualSize lastCRCDigest none KeepSequence).2)
    else (false, r.2)
  else (false, s)

/-- The `checkLastConfirmedInfo` lambda of `MMKV::checkDataValid`: at
version `ActualSize` and newer, first the downgrade-and-upgrade check
against the legacy header, then the last-confirmed snapshot. -/
def checkLastConfirmedInfo (s : MMKVState) : Bool × MMKVState :=
  if MMKVVersionActualSize ≤ s.m_metaInfo.m_version then
    let oldStyleActualSize := s.legacyActualSize
    if oldStyleActualSize ≠ s.m_actualSize then
      let r := checkFileCRCValid s oldStyleActualSize s.m_metaInfo.m_crcDigest
      if r.1 = true then
        (true, (writeActualSize r.2 oldStyleActualSize s.m_metaInfo.m_crcDigest none
          KeepSequence).2)
      else checkLastConfirmedAux r.2
    else checkLastConfirmedAux s
  else (false, s)

/-- `MMKV::checkDataValid`: read the actual size, test the in-bounds and
CRC conditions, otherwise try the last-confirmed recovery and finally the
error-strategy callbacks, clamping the actual size to `m_size - 4` when the
length-error callback answers `Recover`. -/
def checkDataValid (env : FsEnv) (s0 : MMKVState) : CheckDataResult :=
  let s := { s0 with m_actualSize := readActualSize s0 }
  if s.m_actualSize < s.m_size ∧ s.m_actualSize + Fixed32Size ≤ s.m_size then
    let r := checkFileCRCValid s s.m_actualSize s.m_metaInfo.m_crcDigest
    if r.1 = true then ⟨true, false, r.2, false, false⟩
    else
      let r2 := checkLastConfirmedInfo r.2
      if r2.1 = true then ⟨true, false, r2.2, false, false⟩
      else if env.crcFailStrategy = ErrorStrategy.OnErrorRecover then
        ⟨true, true, r2.2, true, false⟩
      else ⟨false, false, r2.2, true, false⟩
  else
    let r2 := checkLastConfirmedInfo s
    if r2.1 = true then ⟨true, false, r2.2, false, false⟩
    else if env.lengthErrorStrategy = ErrorStrategy.OnErrorRecover then
      ⟨true, true, { r2.2 with m_actualSize := r2.2.m_size - Fixed32Size }, false, true⟩
    else ⟨false, false, r2.2, false, true⟩

/-- Cipher re-seed step at the top of the load paths: when encryption is on
and the meta version stores a random IV, reset the cipher with the stored
IV. -/
def cryptReset (s : MMKVState) : MMKVState :=
  match s.m_crypter with
  | some c =>
      if MMKVVersionRandomIV ≤ s.m_metaInfo.m_version then
        { s with m_crypter := some { c with vector := s.m_metaInfo.m_vector, pos := 0 } }
      else s
  | none => s

/-- `MMKV::loadFromAshmem()`: read the meta mirror, re-seed the cipher,
take size and mapping from the anonymous-memory file, validate, decode the
record stream into the dictionary on success, and otherwise reset the store
to empty (bumping the sequence when a nonzero size is discarded). -/
def loadFromAshmem (env : FsEnv) (s0 : MMKVState) : MMKVState :=
  let sA := if s0.metaFileValid = true then { s0 with m_metaInfo := s0.metaFileContent } else s0
  let s1 := cryptReset sA
  if s1.m_fdValid = false then { s1 with m_needLoadFromFile := false }
  else
    let s2 := { s1 with m_size := env.statSize, m_ptrValid := env.mmapOk }
    if env.mmapOk = false then { s2 with m_needLoadFromFile := false }
    else
      let s3 := { s2 with m_actualSize := readActualSize s2 }
      if 0 < s3.m_actualSize then
        let r := checkDataValid env s3
        if r.load = true then
          let s4 := r.state
          let raw := s4.region.take s4.m_actualSize
          let p := match s4.m_crypter with
            | some c =>
                let d := cryptDecrypt c raw
                (d.1, { s4 with m_crypter := some d.2 })
            | none => (raw, s4)
          let s5 := { p.2 with m_dic := decodeMap [] p.1, outputValid := true,
                               outputSize := p.2.m_size - Fixed32Size,
                               outputPos := p.2.m_actualSize }
          { s5 with m_needLoadFromFile := false }
        else
          let s4 : MMKVState :=
            { r.state with outputValid := true,
                           outputSize := r.state.m_size - Fixed32Size, outputPos := 0 }
          let s5 := if 0 < s4.m_actualSize
            then (writeActualSize s4 0 0 none IncreaseSequence).2
            else (writeActualSize s4 0 0 none KeepSequence).2
          { s5 with m_needLoadFromFile := false }
      else
        let s4 : MMKVState :=
          { s3 with outputValid := true,
                    outputSize := s3.m_size - Fixed32Size, outputPos := 0 }
        let s5 := if 0 < s4.m_actualSize
          then (writeActualSize s4 0 0 none IncreaseSequence).2
          else (writeActualSize s4 0 0 none KeepSequence).2
        { s5 with m_needLoadFromFile := false }

mutual

/-- `MMKV::loadFromFile()`: dispatch to the anonymous-memory loader, read
the meta mirror, re-seed the cipher, open and `fstat` the data file, round
its size up to a page multiple (zero-filling the tail), map it, run
`checkDataValid`, decode the record stream into a fresh dictionary and
position the append cursor on success (performing the scheduled full
writeback when recovery asked for one), and otherwise reset the store to
empty — bumping the sequence when a nonzero size is discarded.  Finally the
pending-reload flag is cleared.  The fuel argument bounds the mutual
recursion with `fullWriteback`/`clearAll`; at fuel zero the state is
returned unchanged. -/
def loadFromFile : Nat → FsEnv → MMKVState → MMKVState
  | 0, _, s => s
  | Nat.succ fuel, env, s0 =>
    if s0.m_isAshmem = true then loadFromAshmem env s0
    else
      let sA := if s0.metaFileValid = true
        then { s0 with m_metaInfo := s0.metaFileContent } else s0
      let s1 := cryptReset sA
      let s2 := { s1 with m_fdValid := env.openOk }
      if env.openOk = false then { s2 with m_needLoadFromFile := false }
      else
        let s3 := { s2 with m_size := env.statSize }
        let s4 :=
          if s3.m_size < DEFAULT_MMAP_SIZE ∨ s3.m_size % DEFAULT_MMAP_SIZE ≠ 0 then
            let target := (s3.m_size / DEFAULT_MMAP_SIZE + 1) * DEFAULT_MMAP_SIZE
            if env.ftruncateOk = true then
              { s3 with m_size := target,
                        region := s3.region ++ List.replicate (target - s3.m_size) 0 }
            else s3
          else s3
        let s5 := { s4 with m_ptrValid := env.mmapOk }
        if env.mmapOk = false then { s5 with m_needLoadFromFile := false }
        else
          let r := checkDataValid env s5
          if r.load = true ∧ 0 < r.state.m_actualSize then
            let s6 := r.state
            let raw := s6.region.take s6.m_actualSize
            let p := match s6.m_crypter with
              | some c =>
                  let d := cryptDecrypt c raw
                  (d.1, { s6 with m_crypter := some d.2 })
              | none => (raw, s6)
            let s7 := { p.2 with m_dic := decodeMap [] p.1, outputValid := true,
                                 outputSize := p.2.m_size - Fixed32Size,
                                 outputPos := p.2.m_actualSize }
            let s8 := if r.needFullWriteback = true then (fullWriteback fuel env s7).2 else s7
            { s8 with m_needLoadFromFile := false }
          else
            let s6 : MMKVState :=
              { r.state with outputValid := true,
                             outputSize := r.state.m_size - Fixed32Size, outputPos := 0 }
            let s7 := if 0 < s6.m_actualSize
              then (writeActualSize s6 0 0 none IncreaseSequence).2
              else (writeActualSize s6 0 0 none KeepSequence).2
            { s7 with m_needLoadFromFile := false }

/-- `MMKV::clearAll()`: when a reload is pending on a regular file, delete
the data file and reload; otherwise zero the first page, truncate the data
file back to one page, re-seed the cipher with a fresh random IV, commit an
empty store with `IncreaseSequence`, clear the memory state and reload from
file. -/
def clearAll : Nat → FsEnv → MMKVState → MMKVState
  | 0, _, s => s
  | Nat.succ fuel, env, s0 =>
    if s0.m_needLoadFromFile = true ∧ s0.m_isAshmem = false then
      loadFromFile fuel env { s0 with region := [], legacyActualSize := 0 }
    else
      let s1 := if s0.m_ptrValid = true then
          { s0 with legacyActualSize := 0,
                    region := List.replicate
                        (min s0.region.length (DEFAULT_MMAP_SIZE - Fixed32Size)) 0
                      ++ s0.region.drop (DEFAULT_MMAP_SIZE - Fixed32Size) }
        else s0
      let s2 := if s1.m_isAshmem = false ∧ s1.m_fdValid = true
          ∧ s1.m_size ≠ DEFAULT_MMAP_SIZE then
          (if env.ftruncateOk = true
           then { s1 with region := s1.region.take (DEFAULT_MMAP_SIZE - Fixed32Size) }
           else s1)
        else s1
      let s3 := match s2.m_crypter with
        | some c => { s2 with m_crypter := some { c with vector := env.newIV, pos := 0 } }
        | none => s2
      let s4 := (writeActualSize s3 0 0 (some env.newIV) IncreaseSequence).2
      let s5 := clearMemoryState s4
      loadFromFile fuel env s5

/-- `MMKV::fullWriteback()`: a no-op when a writeback is already recorded
or a reload is pending; fails on an invalid file; delegates to `clearAll`
when the dictionary is empty; otherwise re-encodes the dictionary and
either rewrites it in place when it fits or lets `ensureMemorySize` grow
the file and rewrite. -/
def fullWriteback : Nat → FsEnv → MMKVState → Bool × MMKVState
  | 0, _, s => (false, s)
  | Nat.succ fuel, env, s0 =>
    if s0.m_hasFullWriteback = true then (true, s0)
    else if s0.m_needLoadFromFile = true then (true, s0)
    else if isFileValid s0 = false then (false, s0)
    else if s0.m_dic = [] then (true, clearAll fuel env s0)
    else
      let allData := encodeMap s0.m_dic
      if 0 < allData.length then
        if allData.length + Fixed32Size ≤ s0.m_size then doFullWriteBack env s0 allData
        else ensureMemorySize env s0 (allData.length + Fixed32Size - s0.m_size)
      else (false, s0)

end

/-- `MMKV::partialLoadFromFile()`: re-read the meta mirror, take the new
actual size, and when new bytes were appended in bounds extend the rolling
digest over them; on a digest match decode just the appended range into the
dictionary and advance the cursor, otherwise (and on any bounds failure)
clear the memory state and reload from scratch. -/
def partialLoadFromFile (fuel : Nat) (env : FsEnv) (s0 : MMKVState) : MMKVState :=
  let s1 := { s0 with m_metaInfo := s0.metaFileContent }
  let oldActualSize := s1.m_actualSize
  let s2 := { s1 with m_actualSize := readActualSize s1 }
  if 0 < s2.m_actualSize then
    if s2.m_actualSize < s2.m_size ∧ s2.m_actualSize + Fixed32Size ≤ s2.m_size then
      if oldActualSize < s2.m_actualSize then
        let bufferSize := s2.m_actualSize - oldActualSize
        let buf := (s2.region.drop oldActualSize).take bufferSize
        let s3 := { s2 with m_crcDigest := zlibCrc32 s2.m_crcDigest buf }
        if s3.m_crcDigest = s3.m_metaInfo.m_crcDigest then
          let p := match s3.m_crypter with
            | some c =>
                let d := cryptDecrypt c buf
                (d.1, { s3 with m_crypter := some d.2 })
            | none => (buf, s3)
          { p.2 with m_dic := decodeMap p.2.m_dic p.1,
                     outputPos := p.2.outputPos + bufferSize,
                     m_hasFullWriteback := false }
        else loadFromFile fuel env (clearMemoryState s3)
      else loadFromFile fuel env (clearMemoryState s2)
    else loadFromFile fuel env (clearMemoryState s2)
  else loadFromFile fuel env (clearMemoryState s2)

/-- `MMKV::checkLoadData()`: load from file when a reload is pending;
return in single-process mode or with an invalid meta file; otherwise read
the current meta page — a sequence mismatch clears memory state and fully
reloads, a CRC-only mismatch fully reloads when the file size changed
externally and otherwise partially loads the appended range. -/
def checkLoadData (fuel : Nat) (env : FsEnv) (s : MMKVState) : MMKVState :=
  if s.m_needLoadFromFile = true then
    loadFromFile fuel env { s with m_needLoadFromFile := false }
  else if s.m_isInterProcess = false then s
  else if s.metaFileValid = false then s
  else
    let metaInfo := s.metaFileContent
    if s.m_metaInfo.m_sequence ≠ metaInfo.m_sequence then
      loadFromFile fuel env (clearMemoryState s)
    else if s.m_metaInfo.m_crcDigest ≠ metaInfo.m_crcDigest then
      let fileSize := if s.m_isAshmem = true then s.m_size else env.statSize
      if s.m_size ≠ fileSize then loadFromFile fuel env (clearMemoryState s)
      else partialLoadFromFile fuel env s
    else s

/-- `MMKV::getDataForKey(key)`: run the change check, then return the
dictionary entry or an empty buffer. -/
def getDataForKey (fuel : Nat) (env : FsEnv) (s0 : MMKVState) (key : Bytes) :
    Bytes × MMKVState :=
  let s := checkLoadData fuel env s0
  match dicFind s.m_dic key with
  | some v => (v, s)
  | none => ([], s)

/-- `MMKV::setDataForKey(data, key)`: reject an empty key or value, run the
change check, append the record, and on success store the value in the
dictionary and clear the writeback mark. -/
def setDataForKey (fuel : Nat) (env : FsEnv) (s0 : MMKVState) (data key : Bytes) :
    Bool × MMKVState :=
  if data.length = 0 ∨ key = [] then (false, s0)
  else
    let s := checkLoadData fuel env s0
    let r := appendDataWithKey env s data key
    if r.1 = true then
      (true, { r.2 with m_dic := dicInsert r.2.m_dic key data, m_hasFullWriteback := false })
    else (false, r.2)

/-- `MMKV::removeDataForKey(key)`: reject an empty key; erase the
dictionary entry first, and only when one was present append a tombstone
record (whose success is the call's result). -/
def removeDataForKey (env : FsEnv) (s0 : MMKVState) (key : Bytes) : Bool × MMKVState :=
  if key = [] then (false, s0)
  else
    let found := (dicFind s0.m_dic key).isSome
    let s1 := { s0 with m_dic := dicErase s0.m_dic key }
    if found = true then
      appendDataWithKey env { s1 with m_hasFullWriteback := false } [] key
    else (false, s1)

/-- `MMKV::containsKey(key)`: run the change check, then test membership. -/
def containsKey (fuel : Nat) (env : FsEnv) (s0 : MMKVState) (key : Bytes) :
    Bool × MMKVState :=
  let s := checkLoadData fuel env s0
  ((dicFind s.m_dic key).isSome, s)

/-- `MMKV::count()`: run the change check, then return the dictionary size. -/
def mmkvCount (fuel : Nat) (env : FsEnv) (s0 : MMKVState) : Nat × MMKVState :=
  let s := checkLoadData fuel env s0
  (s.m_dic.length, s)

/-- `MMKV::removeValueForKey(key)`: reject an empty key, run the change
check, then remove. -/
def removeValueForKey (fuel : Nat) (env : FsEnv) (s0 : MMKVState) (key : Bytes) :
    MMKVState :=
  if key = [] then s0
  else
    let s := checkLoadData fuel env s0
    (removeDataForKey env s key).2

/-- `MMKV::removeValuesForKeys(arrKeys)`: nothing on an empty list, a plain
`removeValueForKey` on a one-element list, and otherwise erase every listed
key from the dictionary and perform a single full writeback. -/
def removeValuesForKeys (fuel : Nat) (env : FsEnv) (s0 : MMKVState)
    (arrKeys : List Bytes) : MMKVState :=
  match arrKeys with
  | [] => s0
  | [k] => removeValueForKey fuel env s0 k
  | _ =>
    let s := checkLoadData fuel env s0
    let s1 := { s with m_dic := arrKeys.foldl dicErase s.m_dic, m_hasFullWriteback := false }
    (fullWriteback fuel env s1).2

/-- `MMKV::reKey(cryptKey)`: run the change check; depending on whether a
cipher is configured and on whether the new key differs, either return
immediately or swap the encryption configuration and trigger a full
writeback. -/
def reKey (fuel : Nat) (env : FsEnv) (s0 : MMKVState) (cryptKey : Bytes) :
    Bool × MMKVState :=
  let s := checkLoadData fuel env s0
  match s.m_crypter with
  | some c =>
      if cryptKey ≠ [] then
        if cryptKey = c.key then (true, s)
        else fullWriteback fuel env { s with m_crypter := some (newCrypter cryptKey) }
      else fullWriteback fuel env { s with m_crypter := none }
  | none =>
      if cryptKey ≠ [] then
        fullWriteback fuel env { s with m_crypter := some (newCrypter cryptKey) }
      else (true, s)

/-- Fuel-bounded body of the halving loop; `size` rounds of fuel always
suffice since the size strictly decreases. -/
def shrinkLoopAux : Nat → Nat → Nat → Nat
  | 0, size, _ => size
  | fuel + 1, size, actualSize =>
      if (actualSize + Fixed32Size) * 2 < size then shrinkLoopAux fuel (size / 2) actualSize
      else size

/-- The halving loop of `MMKV::trim`:
`while (m_size > (m_actualSize + Fixed32Size) * 2) m_size /= 2;`. -/
def shrinkLoop (size actualSize : Nat) : Nat := shrinkLoopAux size size actualSize

/-- `MMKV::trim()`: a no-op for the anonymous-memory variant; after the
change check, delegate to `clearAll` at zero actual size, return when the
file is at most one page, and otherwise perform a full writeback, halve the
file size while it exceeds twice the used bytes, truncate (restoring the
old size on failure) and re-map, re-creating the append cursor. -/
def trim (fuel : Nat) (env : FsEnv) (s0 : MMKVState) : MMKVState :=
  if s0.m_isAshmem = true then s0
  else
    let s := checkLoadData fuel env s0
    if s.m_actualSize = 0 then clearAll fuel env s
    else if s.m_size ≤ DEFAULT_MMAP_SIZE then s
    else
      let s1 := (fullWriteback fuel env s).2
      let oldSize := s1.m_size
      let s2 := { s1 with m_size := shrinkLoop s1.m_size s1.m_actualSize }
      if oldSize = s2.m_size then s2
      else if env.ftruncateOk = false then { s2 with m_size := oldSize }
      else
        { s2 with region := s2.region.take (s2.m_size - Fixed32Size),
                  m_ptrValid := env.mmapOk,
                  outputValid := true, outputSize := s2.m_size - Fixed32Size,
                  outputPos := s2.m_actualSize }

/-- One public operation of the engine, for invariants quantified over
operation sequences. -/
inductive MMKVOp where
  | setData (data key : Bytes)
  | removeData (key : Bytes)
  | removeValue (key : Bytes)
  | removeMany (keys : List Bytes)
  | getData (key : Bytes)
  | containsOp (key : Bytes)
  | countOp
  | clearAllOp
  | fullWritebackOp
  | reKeyOp (key : Bytes)
  | trimOp
  | checkLoad

/-- Interpretation of one operation as a state transformer (results of
value-returning operations are projected away). -/
def stepOp (fuel : Nat) (env : FsEnv) (op : MMKVOp) (s : MMKVState) : MMKVState :=
  match op with
  | MMKVOp.setData data key => (setDataForKey fuel env s data key).2
  | MMKVOp.removeData key => (removeDataForKey env s key).2
  | MMKVOp.removeValue key => removeValueForKey fuel env s key
  | MMKVOp.removeMany keys => removeValuesForKeys fuel env s keys
  | MMKVOp.getData key => (getDataForKey fuel env s key).2
  | MMKVOp.containsOp key => (containsKey fuel env s key).2
  | MMKVOp.countOp => (mmkvCount fuel env s).2
  | MMKVOp.clearAllOp => clearAll fuel env s
  | MMKVOp.fullWritebackOp => (fullWriteback fuel env s).2
  | MMKVOp.reKeyOp key => (reKey fuel env s key).2
  | MMKVOp.trimOp => trim fuel env s
  | MMKVOp.checkLoad => checkLoadData fuel env s

/-- Single-process coherence between the in-memory meta mirror and the
mapped meta page: whenever the meta file is valid, the sequence stored on
the page equals the in-memory one.  It holds after construction and is
preserved by every modelled operation. -/
def SeqCoherent (s : MMKVState) : Prop :=
  s.metaFileValid = true → s.metaFileContent.m_sequence = s.m_metaInfo.m_sequence

instance (s : MMKVState) : Decidable (SeqCoherent s) := by
  unfold SeqCoherent; infer_instance

/-- Byte view of a text identifier. -/
def strBytes (s : String) : List Nat := s.data.map Char.toNat

/-- Modelled from the spec: the MD5 primitive (outside `src/`), as an
arbitrary deterministic digest rendered to text. -/
def md5 (v : String) : String := toString (zlibCrc32 1 (strBytes v))

/-- Static helper `mmapedKVKey(mmapID, relativePath)`: on a non-default
relative path the canonical registry key is the digest of
`relativePath + "/" + mmapID`, otherwise the identifier itself. -/
def mmapedKVKey (g_rootDir : String) (mmapID : String) (relativePath : Option String) :
    String :=
  match relativePath with
  | some rp => if g_rootDir ≠ rp then md5 (rp ++ "/" ++ mmapID) else mmapID
  | none => mmapID

/-- External outcomes consumed by `mmkvWithID`: whether the data file for a
relative-path store already exists, and whether creating it succeeds. -/
structure RegEnv where
  fileExists : Bool
  createFileOk : Bool
deriving DecidableEq

/-- The process-wide registry `g_instanceDic`: canonical identifier to live
engine handle, plus a fresh-handle counter standing for `new MMKV(...)`. -/
structure Registry where
  g_instanceDic : List (String × Nat)
  nextHandle : Nat
deriving DecidableEq

/-- Lookup in the registry (`g_instanceDic->find`). -/
def regFind : List (String × Nat) → String → Option Nat
  | [], _ => none
  | (k, h) :: rest, key => if k = key then some h else regFind rest key

/-- `MMKV::mmkvWithID(mmapID, size, mode, cryptKey, relativePath)`: reject
an empty identifier before touching the registry; return the registered
instance for the canonical key when present; for a relative-path store
whose file neither exists nor can be created return null; otherwise
construct a new engine and register it. -/
def mmkvWithID (env : RegEnv) (g_rootDir : String) (reg : Registry) (mmapID : String)
    (relativePath : Option String) : Option Nat × Registry :=
  if mmapID = "" then (none, reg)
  else
    let mmapKey := mmapedKVKey g_rootDir mmapID relativePath
    match regFind reg.g_instanceDic mmapKey with
    | some kv => (some kv, reg)
    | none =>
        let proceed := match relativePath with
          | some _ => env.fileExists || env.createFileOk
          | none => true
        if proceed = false then (none, reg)
        else (some reg.nextHandle,
          { g_instanceDic := reg.g_instanceDic ++ [(mmapKey, reg.nextHandle)],
            nextHandle := reg.nextHandle + 1 })

/-- Observables of `checkDataValid` that the load/recovery claim speaks
about: the load flag, the scheduled-writeback flag, the resulting actual
size, and which error-strategy callback was consulted. -/
def checkDataObserve (r : CheckDataResult) : Bool × Bool × Nat × Bool × Bool :=
  (r.load, r.needFullWriteback, r.state.m_actualSize, r.consultedCRCFail,
   r.consultedLengthError)

/-- Claim-side description of the load validity check, written from the
spec's words: load when `actualSize + 4 ≤ file_size` and the record-region
CRC matches `meta.crcDigest`; otherwise fall back to the last-confirmed
pair; only if that also fails consult the error-strategy callback, and on a
length error answered with `Recover` clamp the actual size to
`file_size - 4` and schedule a full writeback. -/
def checkDataValidClaim (env : FsEnv) (s : MMKVState) : Bool × Bool × Nat × Bool × Bool :=
  let as := s.m_metaInfo.m_actualSize
  if as + Fixed32Size ≤ s.m_size ∧ zlibCrc32 0 (s.region.take as) = s.m_metaInfo.m_crcDigest
  then (true, false, as, false, false)
  else
    let las := s.m_metaInfo.lastActualSize
    if las + Fixed32Size ≤ s.m_size
        ∧ zlibCrc32 0 (s.region.take las) = s.m_metaInfo.lastCRCDigest then
      (true, false, las, false, false)
    else if as + Fixed32Size ≤ s.m_size then
      if env.crcFailStrategy = ErrorStrategy.OnErrorRecover then (true, true, as, true, false)
      else (false, false, as, true, false)
    else
      if env.lengthErrorStrategy = ErrorStrategy.OnErrorRecover then
        (true, true, s.m_size - Fixed32Size, false, true)
      else (false, false, as, false, true)

/-- Claim-side description of the cross-process change check, written from
the spec's words: on a sequence mismatch clear memory state and reload from
file; on a CRC-only mismatch reload from scratch when the file size changed
externally and otherwise decode just the appended byte range — updating the
rolling CRC incrementally and merging into the dictionary — falling back to
a full reload when the incremental CRC does not match `meta.crcDigest`;
otherwise nothing changed. -/
def checkLoadDataClaim (fuel : Nat) (env : FsEnv) (s : MMKVState) : MMKVState :=
  let ext := s.metaFileContent
  if s.m_metaInfo.m_sequence ≠ ext.m_sequence then
    loadFromFile fuel env (clearMemoryState s)
  else if s.m_metaInfo.m_crcDigest ≠ ext.m_crcDigest then
    if s.m_size ≠ env.statSize then loadFromFile fuel env (clearMemoryState s)
    else
      let newActualSize := ext.m_actualSize
      let buf := (s.region.drop s.m_actualSize).take (newActualSize - s.m_actualSize)
      let c := zlibCrc32 s.m_crcDigest buf
      if c = ext.m_crcDigest then
        { s with m_metaInfo := ext, m_actualSize := newActualSize, m_crcDigest := c,
                 m_dic := decodeMap s.m_dic buf,
                 outputPos := s.outputPos + (newActualSize - s.m_actualSize),
                 m_hasFullWriteback := false }
      else
        loadFromFile fuel env (clearMemoryState
          { s with m_metaInfo := ext, m_actualSize := newActualSize, m_crcDigest := c })
  else s

/-- Claim-side description of `removeValuesForKeys`, written from the
claim's words: for every non-empty key list, erase all the listed keys from
the in-memory dictionary and then perform a single full writeback. -/
def removeManyClaim (fuel : Nat) (env : FsEnv) (s0 : MMKVState) (keys : List Bytes) :
    MMKVState :=
  if keys = [] then s0
  else
    let s := checkLoadData fuel env s0
    let s1 := { s with m_dic := keys.foldl dicErase s.m_dic, m_hasFullWriteback := false }
    (fullWriteback fuel env s1).2

/-- Claim-side description of `trim` as amended: a no-op for the
anonymous-memory variant; `clearAll` at zero actual size; a no-op when the
file is at most one page; otherwise a full writeback first, then halving
while `file_size > 2 x (actualSize + 4)`, then truncate and re-map. -/
def trimClaimAmended (fuel : Nat) (env : FsEnv) (s : MMKVState) : MMKVState :=
  if s.m_isAshmem = true then s
  else if s.m_actualSize = 0 then clearAll fuel env s
  else if s.m_size ≤ DEFAULT_MMAP_SIZE then s
  else
    let s1 := (fullWriteback fuel env s).2
    let newSize := shrinkLoop s1.m_size s1.m_actualSize
    if newSize = s1.m_size then s1
    else
      { s1 with m_size := newSize, region := s1.region.take (newSize - Fixed32Size),
                m_ptrValid := env.mmapOk,
                outputValid := true, outputSize := newSize - Fixed32Size,
                outputPos := s1.m_actualSize }

/-- Sample meta header: version `ActualSize`, sequence 5, consistent with
an empty record stream. -/
def metaA : MMKVMetaInfo :=
  { m_crcDigest := 0, m_actualSize := 0, m_version := 2, m_sequence := 5, m_vector := 0,
    lastActualSize := 0, lastCRCDigest := 0 }

/-- Sample loaded single-process store over an empty record stream. -/
def stateA : MMKVState :=
  { m_dic := [], m_size := 4096, m_actualSize := 0, m_crcDigest := 0,
    m_metaInfo := metaA, metaFileContent := metaA, metaFileValid := true,
    m_needLoadFromFile := false, m_hasFullWriteback := false,
    m_isAshmem := false, m_isInterProcess := false, m_crypter := none,
    m_fdValid := true, m_ptrValid := true,
    region := List.replicate 64 0, legacyActualSize := 0,
    outputValid := true, outputSize := 4092, outputPos := 0 }

/-- Sample environment where every file-system call succeeds. -/
def envA : FsEnv :=
  { statSize := 4096, openOk := true, ftruncateOk := true, zeroFillOk := true,
    mmapOk := true, newIV := 9,
    crcFailStrategy := ErrorStrategy.OnErrorDiscard,
    lengthErrorStrategy := ErrorStrategy.OnErrorDiscard }

/-- Sample loaded store holding the single pair `([1], [7])`, whose record
stream `[1, 1, 1, 7]` is 4 bytes long. -/
def stateB : MMKVState :=
  { stateA with m_dic := [([1], [7])], m_actualSize := 4, outputPos := 4,
                region := [1, 1, 1, 7] ++ List.replicate 60 0,
                legacyActualSize := 4,
                m_crcDigest := zlibCrc32 0 [1, 1, 1, 7],
                m_metaInfo := { metaA with m_actualSize := 4,
                                           m_crcDigest := zlibCrc32 0 [1, 1, 1, 7],
                                           lastActualSize := 4,
                                           lastCRCDigest := zlibCrc32 0 [1, 1, 1, 7] },
                metaFileContent := { metaA with m_actualSize := 4,
                                                m_crcDigest := zlibCrc32 0 [1, 1, 1, 7],
                                                lastActualSize := 4,
                                                lastCRCDigest := zlibCrc32 0 [1, 1, 1, 7] } }



/-- Adjusted incoming size of `ensureMemorySize`: the item-size placeholder
is reserved when the dictionary is empty. -/
def adjustedSize (s : MMKVState) (newSize0 : Nat) : Nat :=
  if s.m_dic = [] then newSize0 + ItemSizeHolderSize else newSize0

/-- The local `lenNeeded` of `ensureMemorySize`: encoded dictionary plus
header plus the adjusted incoming size. -/
def lenNeededFor (s : MMKVState) (newSize0 : Nat) : Nat :=
  (encodeMap s.m_dic).length + Fixed32Size + adjustedSize s newSize0

/-- The local `futureUsage` of `ensureMemorySize`:
`avgItemSize * max(8, (count + 1) / 2)` with
`avgItemSize = lenNeeded / max(1, count)`. -/
def futureUsageFor (s : MMKVState) (newSize0 : Nat) : Nat :=
  (lenNeededFor s newSize0 / max 1 s.m_dic.length) * max 8 ((s.m_dic.length + 1) / 2)


/-- Sample store on a deliberately tiny 8-byte file with a full append
cursor, forcing the growth path of `ensureMemorySize`. -/
def stateC : MMKVState :=
  { stateB with m_size := 8, outputSize := 4, outputPos := 4,
                region := [1, 1, 1, 7] }


/-- Sample inter-process store that has not yet seen a 4-byte record
another process appended: the meta page records the appended size and
digest while the in-memory mirror still reflects the empty stream. -/
def stateD : MMKVState :=
  { stateA with m_isInterProcess := true,
                region := [1, 1, 1, 7] ++ List.replicate 60 0,
                metaFileContent := { metaA with m_actualSize := 4,
                                                m_crcDigest := zlibCrc32 0 [1, 1, 1, 7] } }


/-- Sample loaded store holding one pair on an oversized 8192-byte file,
which `trim` halves down. -/
def stateE : MMKVState :=
  { stateB with m_size := 8192, outputSize := 8188 }


/-- Lower bound shared by the in-memory meta mirror and the mapped meta
page: the smaller of the two stored sequence numbers.  It never decreases
under any modelled operation, with no coherence assumption. -/
def seqLow (s : MMKVState) : Nat :=
  min s.m_metaInfo.m_sequence s.metaFileContent.m_sequence


theorem dicFind_insert (d : Dic) (k v : Bytes) : dicFind (dicInsert d k v) k = some v := by
  induction d with
  | nil => simp [dicInsert, dicFind]
  | cons hd tl ih =>
      obtain ⟨k', v'⟩ := hd
      by_cases h : k' = k
      · simp [dicInsert, dicFind, h]
      · simp [dicInsert, dicFind, h, ih]

theorem dicFind_erase (d : Dic) (k : Bytes) : dicFind (dicErase d k) k = none := by
  induction d with
  | nil => simp [dicErase, dicFind]
  | cons hd tl ih =>
      obtain ⟨k', v'⟩ := hd
      by_cases h : k' = k
      · simp [dicErase, h, ih]
      · simp [dicErase, dicFind, h, ih]

theorem dicFind_erase_other (d : Dic) (k k' : Bytes) (h : dicFind d k = none) :
    dicFind (dicErase d k') k = none := by
  induction d with
  | nil => simpa [dicErase] using h
  | cons hd tl ih =>
      obtain ⟨k0, v0⟩ := hd
      simp only [dicFind] at h
      by_cases h0 : k0 = k
      · simp [h0] at h
      · simp only [dicErase]
        by_cases h1 : k0 = k'
        · simp only [if_pos h1]
          exact ih (by simpa [h0] using h)
        · simp only [if_neg h1, dicFind, if_neg h0]
          exact ih (by simpa [h0] using h)

theorem dicFind_foldl_erase_none (keys : List Bytes) (d : Dic) (k : Bytes)
    (h : dicFind d k = none) : dicFind (keys.foldl dicErase d) k = none := by
  induction keys generalizing d with
  | nil => simpa using h
  | cons hd tl ih => simpa using ih (dicErase d hd) (dicFind_erase_other d k hd h)

theorem dicFind_foldl_erase (keys : List Bytes) (k : Bytes) (h : k ∈ keys) :
    ∀ d : Dic, dicFind (keys.foldl dicErase d) k = none := by
  induction keys with
  | nil => cases h
  | cons hd tl ih =>
      intro d
      rcases List.mem_cons.mp h with h1 | h1
      · subst h1
        simpa using dicFind_foldl_erase_none tl (dicErase d k) k (dicFind_erase d k)
      · simpa using ih h1 (dicErase d hd)

theorem checkLoadData_id (fuel : Nat) (env : FsEnv) (s : MMKVState)
    (h1 : s.m_needLoadFromFile = false) (h2 : s.m_isInterProcess = false) :
    checkLoadData fuel env s = s := by
  simp [checkLoadData, h1, h2]

theorem writeActualSize_projs (s : MMKVState) (a c : Nat) (iv : Option Nat) (b : Bool) :
    (writeActualSize s a c iv b).2.m_dic = s.m_dic
    ∧ (writeActualSize s a c iv b).2.m_needLoadFromFile = s.m_needLoadFromFile
    ∧ (writeActualSize s a c iv b).2.m_isInterProcess = s.m_isInterProcess
    ∧ (writeActualSize s a c iv b).2.metaFileValid = s.metaFileValid
    ∧ (writeActualSize s a c iv b).2.m_isAshmem = s.m_isAshmem
    ∧ (writeActualSize s a c iv b).2.m_fdValid = s.m_fdValid
    ∧ (writeActualSize s a c iv b).2.m_ptrValid = s.m_ptrValid
    ∧ (writeActualSize s a c iv b).2.m_size = s.m_size
    ∧ (writeActualSize s a c iv b).2.m_crypter = s.m_crypter
    ∧ (writeActualSize s a c iv b).2.m_hasFullWriteback = s.m_hasFullWriteback
    ∧ (writeActualSize s a c iv b).2.outputValid = s.outputValid
    ∧ (writeActualSize s a c iv b).2.outputSize = s.outputSize
    ∧ (writeActualSize s a c iv b).2.outputPos = s.outputPos
    ∧ (writeActualSize s a c iv b).2.region = s.region := by
  unfold writeActualSize oldStyleWriteActualSize
  cases iv <;> dsimp only <;> repeat' split <;> simp

theorem recaculateCRCDigestWithIV_projs (s : MMKVState) (iv : Option Nat) :
    (recaculateCRCDigestWithIV s iv).m_dic = s.m_dic
    ∧ (recaculateCRCDigestWithIV s iv).m_needLoadFromFile = s.m_needLoadFromFile
    ∧ (recaculateCRCDigestWithIV s iv).m_isInterProcess = s.m_isInterProcess
    ∧ (recaculateCRCDigestWithIV s iv).metaFileValid = s.metaFileValid
    ∧ (recaculateCRCDigestWithIV s iv).m_isAshmem = s.m_isAshmem
    ∧ (recaculateCRCDigestWithIV s iv).m_fdValid = s.m_fdValid
    ∧ (recaculateCRCDigestWithIV s iv).m_ptrValid = s.m_ptrValid
    ∧ (recaculateCRCDigestWithIV s iv).m_size = s.m_size
    ∧ (recaculateCRCDigestWithIV s iv).m_crypter = s.m_crypter
    ∧ (recaculateCRCDigestWithIV s iv).m_hasFullWriteback = s.m_hasFullWriteback
    ∧ (recaculateCRCDigestWithIV s iv).outputValid = s.outputValid
    ∧ (recaculateCRCDigestWithIV s iv).outputSize = s.outputSize
    ∧ (recaculateCRCDigestWithIV s iv).outputPos = s.outputPos
    ∧ (recaculateCRCDigestWithIV s iv).region = s.region := by
  unfold recaculateCRCDigestWithIV
  split <;> simp [writeActualSize_projs]

theorem updateCRCDigest_projs (s : MMKVState) (bytes : Bytes) :
    (updateCRCDigest s bytes).m_dic = s.m_dic
    ∧ (updateCRCDigest s bytes).m_needLoadFromFile = s.m_needLoadFromFile
    ∧ (updateCRCDigest s bytes).m_isInterProcess = s.m_isInterProcess
    ∧ (updateCRCDigest s bytes).metaFileValid = s.metaFileValid
    ∧ (updateCRCDigest s bytes).m_isAshmem = s.m_isAshmem
    ∧ (updateCRCDigest s bytes).m_fdValid = s.m_fdValid
    ∧ (updateCRCDigest s bytes).m_ptrValid = s.m_ptrValid
    ∧ (updateCRCDigest s bytes).m_size = s.m_size
    ∧ (updateCRCDigest s bytes).m_crypter = s.m_crypter
    ∧ (updateCRCDigest s bytes).m_hasFullWriteback = s.m_hasFullWriteback
    ∧ (updateCRCDigest s bytes).outputValid = s.outputValid
    ∧ (updateCRCDigest s bytes).outputSize = s.outputSize
    ∧ (updateCRCDigest s bytes).outputPos = s.outputPos := by
  unfold updateCRCDigest
  simp [writeActualSize_projs]

theorem doFullWriteBack_projs (env : FsEnv) (s : MMKVState) (d : Bytes) :
    (doFullWriteBack env s d).2.m_dic = s.m_dic
    ∧ (doFullWriteBack env s d).2.m_needLoadFromFile = s.m_needLoadFromFile
    ∧ (doFullWriteBack env s d).2.m_isInterProcess = s.m_isInterProcess
    ∧ (doFullWriteBack env s d).2.metaFileValid = s.metaFileValid
    ∧ (doFullWriteBack env s d).2.m_isAshmem = s.m_isAshmem
    ∧ (doFullWriteBack env s d).2.m_fdValid = s.m_fdValid
    ∧ (doFullWriteBack env s d).2.m_size = s.m_size
    ∧ (doFullWriteBack env s d).1 = true := by
  unfold doFullWriteBack
  split <;> simp [recaculateCRCDigestWithIV_projs]

theorem ensureMemorySize_projs (env : FsEnv) (s : MMKVState) (n : Nat) :
    (ensureMemorySize env s n).2.m_dic = s.m_dic
    ∧ (ensureMemorySize env s n).2.m_needLoadFromFile = s.m_needLoadFromFile
    ∧ (ensureMemorySize env s n).2.m_isInterProcess = s.m_isInterProcess
    ∧ (ensureMemorySize env s n).2.metaFileValid = s.metaFileValid
    ∧ (ensureMemorySize env s n).2.m_isAshmem = s.m_isAshmem
    ∧ (ensureMemorySize env s n).2.m_fdValid = s.m_fdValid := by
  unfold ensureMemorySize
  dsimp only
  repeat' split
  all_goals simp [doFullWriteBack_projs]

theorem appendDataWithKey_projs (env : FsEnv) (s : MMKVState) (data key : Bytes) :
    (appendDataWithKey env s data key).2.m_dic = s.m_dic
    ∧ (appendDataWithKey env s data key).2.m_needLoadFromFile = s.m_needLoadFromFile
    ∧ (appendDataWithKey env s data key).2.m_isInterProcess = s.m_isInterProcess
    ∧ (appendDataWithKey env s data key).2.metaFileValid = s.metaFileValid
    ∧ (appendDataWithKey env s data key).2.m_isAshmem = s.m_isAshmem
    ∧ (appendDataWithKey env s data key).2.m_fdValid = s.m_fdValid := by
  unfold appendDataWithKey
  dsimp only
  split
  · simp [ensureMemorySize_projs]
  · split <;> simp [updateCRCDigest_projs, ensureMemorySize_projs]

theorem ensureMemorySize_invalid (env : FsEnv) (s : MMKVState) (n : Nat)
    (h : isFileValid s = false) : ensureMemorySize env s n = (false, s) := by
  simp [ensureMemorySize, h]

theorem appendDataWithKey_invalid (env : FsEnv) (s : MMKVState) (data key : Bytes)
    (h : isFileValid s = false) : appendDataWithKey env s data key = (false, s) := by
  simp [appendDataWithKey, ensureMemorySize_invalid env s _ h, h]

/-- C4: for every call of `setDataForKey` with an empty key or an empty
value, the operation returns `false` and the store state (dictionary,
actual size, CRC, file contents) is unchanged. -/
theorem claim4_empty_set_rejected (fuel : Nat) (env : FsEnv) (s : MMKVState)
    (data key : Bytes) (h : data = [] ∨ key = []) :
    setDataForKey fuel env s data key = (false, s) := by
  rcases h with h | h <;> subst h <;> simp [setDataForKey]

/-- Witness for C4 at the concrete loaded store `stateA` with an empty
value. -/
theorem claim4_witness : setDataForKey 3 envA stateA [] [1] = (false, stateA) :=
  claim4_empty_set_rejected 3 envA stateA [] [1] (Or.inl rfl)

/-- C9: `removeDataForKey` on a present key erases the in-memory entry
before appending the tombstone, so when the append fails (here: the file is
invalid) the call returns `false` yet the key is already gone from the
in-memory dictionary — the removal is not atomic on error. -/
theorem claim9_remove_not_atomic (env : FsEnv) (s : MMKVState) (key v : Bytes)
    (h1 : dicFind s.m_dic key = some v) (h2 : isFileValid s = false) (h3 : key ≠ []) :
    removeDataForKey env s key
      = (false, { s with m_dic := dicErase s.m_dic key, m_hasFullWriteback := false })
    ∧ dicFind (dicErase s.m_dic key) key = none := by
  refine ⟨?_, dicFind_erase s.m_dic key⟩
  have h2' : isFileValid
      ({ s with m_dic := dicErase s.m_dic key, m_hasFullWriteback := false }) = false := h2
  simp [removeDataForKey, h3, h1, appendDataWithKey_invalid _ _ _ _ h2']

/-- Witness for C9 at `stateB` with its mapping invalidated: the remove
reports failure but the dictionary entry for key `[1]` is gone. -/
theorem claim9_witness :
    removeDataForKey envA { stateB with m_ptrValid := false } [1]
      = (false, { stateB with m_ptrValid := false, m_dic := [], m_hasFullWriteback := false })
    ∧ dicFind (dicErase ({ stateB with m_ptrValid := false } : MMKVState).m_dic [1]) [1]
      = none := by
  have := claim9_remove_not_atomic envA { stateB with m_ptrValid := false } [1] [7]
    (by decide) (by decide) (by decide)
  simpa using this

/-- C10: `mmkvWithID` with an empty identifier returns null without
creating an engine or touching the registry, and for a non-empty
identifier whose canonical key is already registered it returns the very
instance recorded in the registry, leaving the registry unchanged. -/
theorem claim10_registry (env : RegEnv) (root : String) (reg : Registry) (mmapID : String)
    (relativePath : Option String) (e : Nat)
    (h1 : mmapID ≠ "")
    (h2 : regFind reg.g_instanceDic (mmapedKVKey root mmapID relativePath) = some e) :
    mmkvWithID env root reg "" relativePath = (none, reg)
    ∧ mmkvWithID env root reg mmapID relativePath = (some e, reg) := by
  constructor
  · simp [mmkvWithID]
  · simp [mmkvWithID, h1, h2]

/-- Counterexample to C2 as stated: a `fullWriteback` call on a store
whose `m_hasFullWriteback` flag is already set returns immediately and
leaves `meta.sequence` unchanged, so not every call to `fullWriteback`
strictly increases the sequence. -/
theorem claim2_counterexample :
    (fullWriteback 5 envA { stateB with m_hasFullWriteback := true }).2.m_metaInfo.m_sequence
      = ({ stateB with m_hasFullWriteback := true } : MMKVState).m_metaInfo.m_sequence
    ∧ ¬ ({ stateB with m_hasFullWriteback := true } : MMKVState).m_metaInfo.m_sequence
      < (fullWriteback 5 envA
          { stateB with m_hasFullWriteback := true }).2.m_metaInfo.m_sequence := by
  decide

/-- Counterexample to C7 as stated: on the one-element key list `[[1]]`,
`removeValuesForKeys` delegates to `removeValueForKey`, which appends a
tombstone record, and the result differs from erasing the key and
performing a single `fullWriteback` as the claim prescribes
(`removeManyClaim`). -/
theorem claim7_counterexample :
    removeValuesForKeys 5 envA stateB [[1]] ≠ removeManyClaim 5 envA stateB [[1]] := by
  decide

/-- Counterexample to C8 as stated: on a loaded store whose file is
exactly one page (`stateB`: size 4096, actual size 4), `trim` returns the
state unchanged even though `file_size > 2 x (actualSize + 4)`, so neither
the claimed halving nor the claimed initial full writeback happens. -/
theorem claim8_counterexample :
    trim 5 envA stateB = stateB
    ∧ 2 * (stateB.m_actualSize + Fixed32Size) < stateB.m_size := by
  decide

/-- Witness for C10 at a registry already holding handle 1 under the
identifier `store`. -/
theorem claim10_witness :
    mmkvWithID { fileExists := true, createFileOk := true } "root"
        { g_instanceDic := [("store", 1)], nextHandle := 2 } "" none
      = (none, { g_instanceDic := [("store", 1)], nextHandle := 2 })
    ∧ mmkvWithID { fileExists := true, createFileOk := true } "root"
        { g_instanceDic := [("store", 1)], nextHandle := 2 } "store" none
      = (some 1, { g_instanceDic := [("store", 1)], nextHandle := 2 }) :=
  claim10_registry { fileExists := true, createFileOk := true } "root"
    { g_instanceDic := [("store", 1)], nextHandle := 2 } "store" none 1
    (by decide) (by decide)

theorem removeDataForKey_found (env : FsEnv) (s : MMKVState) (key v : Bytes)
    (h : dicFind s.m_dic key = some v) (h4 : key ≠ []) :
    (removeDataForKey env s key).2.m_dic = dicErase s.m_dic key
    ∧ (removeDataForKey env s key).2.m_needLoadFromFile = s.m_needLoadFromFile
    ∧ (removeDataForKey env s key).2.m_isInterProcess = s.m_isInterProcess := by
  simp only [removeDataForKey, if_neg h4, h, Option.isSome_some, if_true]
  obtain ⟨hdic2, hnl2, hip2, _⟩ := appendDataWithKey_projs env
    { s with m_dic := dicErase s.m_dic key, m_hasFullWriteback := false } [] key
  exact ⟨by simpa using hdic2, by simpa using hnl2, by simpa using hip2⟩

/-- C1: on a loaded single-process store, after a successful
`setDataForKey(v, k)` with non-empty key and value, `getDataForKey(k)`
returns a buffer equal to `v`; and after `removeDataForKey(k)`,
`getDataForKey(k)` returns an empty buffer and `containsKey(k)` is false. -/
theorem claim1_set_get_remove (fuel : Nat) (env : FsEnv) (s : MMKVState)
    (data key : Bytes) (s' : MMKVState)
    (h1 : s.m_needLoadFromFile = false) (h2 : s.m_isInterProcess = false)
    (h3 : data ≠ []) (h4 : key ≠ [])
    (h5 : setDataForKey fuel env s data key = (true, s')) :
    (getDataForKey fuel env s' key).1 = data
    ∧ (getDataForKey fuel env (removeDataForKey env s' key).2 key).1 = []
    ∧ (containsKey fuel env (removeDataForKey env s' key).2 key).1 = false := by
  simp only [setDataForKey, List.length_eq_zero, h3, h4, or_self, if_false,
    checkLoadData_id fuel env s h1 h2, false_or, or_false] at h5
  split at h5
  case isFalse => simp at h5
  case isTrue hr =>
    have hs' : s' = { (appendDataWithKey env s data key).2 with
        m_dic := dicInsert (appendDataWithKey env s data key).2.m_dic key data,
        m_hasFullWriteback := false } := by
      have := congrArg Prod.snd h5
      simpa using this.symm
    obtain ⟨hdic, hnl, hip, _⟩ := appendDataWithKey_projs env s data key
    have sdic : s'.m_dic = dicInsert s.m_dic key data := by rw [hs']; simp [hdic]
    have snl : s'.m_needLoadFromFile = false := by rw [hs']; simp [hnl, h1]
    have sip : s'.m_isInterProcess = false := by rw [hs']; simp [hip, h2]
    have hfind : dicFind s'.m_dic key = some data := by rw [sdic]; exact dicFind_insert _ _ _
    have hget : (getDataForKey fuel env s' key).1 = data := by
      simp [getDataForKey, checkLoadData_id fuel env s' snl sip, hfind]
    obtain ⟨rdic, rnl, rip⟩ := removeDataForKey_found env s' key data hfind h4
    refine ⟨hget, ?_, ?_⟩
    · simp [getDataForKey, checkLoadData_id fuel env _ (rnl.trans snl) (rip.trans sip),
        rdic, dicFind_erase]
    · simp [containsKey, checkLoadData_id fuel env _ (rnl.trans snl) (rip.trans sip),
        rdic, dicFind_erase]

/-- Witness for C1: set `[7]` under key `[1]` on `stateA`, then read it
back, remove it and observe the empty read and failed membership test. -/
theorem claim1_witness :
    (getDataForKey 3 envA ((setDataForKey 3 envA stateA [7] [1]).2) [1]).1 = [7]
    ∧ (getDataForKey 3 envA
        (removeDataForKey envA (setDataForKey 3 envA stateA [7] [1]).2 [1]).2 [1]).1 = []
    ∧ (containsKey 3 envA
        (removeDataForKey envA (setDataForKey 3 envA stateA [7] [1]).2 [1]).2 [1]).1
      = false :=
  claim1_set_get_remove 3 envA stateA [7] [1] (setDataForKey 3 envA stateA [7] [1]).2
    rfl rfl (by decide) (by decide) (by decide)

theorem growLoopAux_pow (fuel t size : Nat) :
    ∃ k, growLoopAux fuel t size = size * 2 ^ k := by
  induction fuel generalizing size with
  | zero => exact ⟨0, by simp [growLoopAux]⟩
  | succ n ih =>
      simp only [growLoopAux]
      split
      · obtain ⟨k, hk⟩ := ih (size * 2)
        exact ⟨k + 1, by rw [hk]; ring⟩
      · exact ⟨0, by simp⟩

theorem growLoopAux_gt (fuel t size : Nat) (h0 : 0 < size) (hf : t + 1 - size ≤ fuel) :
    t < growLoopAux fuel t size := by
  induction fuel generalizing size with
  | zero => simp only [growLoopAux]; omega
  | succ n ih =>
      simp only [growLoopAux]
      split
      case isTrue h => exact ih (size * 2) (by omega) (by omega)
      case isFalse h => omega

theorem growSize_spec (t size : Nat) (h0 : 0 < size) :
    (∃ k, 1 ≤ k ∧ growSize t size = size * 2 ^ k) ∧ t < growSize t size := by
  constructor
  · obtain ⟨k, hk⟩ := growLoopAux_pow (t + 1 - size * 2) t (size * 2)
    refine ⟨k + 1, by omega, ?_⟩
    unfold growSize growLoop
    rw [hk]; ring
  · unfold growSize growLoop
    exact growLoopAux_gt _ t (size * 2) (by omega) (by omega)

/-- C5: whenever a write needs more room than the free space of the append
cursor and the total requirement `lenNeededFor` is at least the current
file size, `ensureMemorySize` repeatedly doubles the file size until
`lenNeeded + futureUsage` fits — with `futureUsage` computed from the
average item size times `max 8 ((count + 1) / 2)` — so after the grow the
file size is a power-of-two multiple of the previous size and at least the
required size. -/
theorem claim5_growth_policy (env : FsEnv) (s : MMKVState) (newSize0 : Nat)
    (h1 : isFileValid s = true) (h2 : s.m_isAshmem = false)
    (h3 : env.ftruncateOk = true) (h4 : env.zeroFillOk = true) (h5 : env.mmapOk = true)
    (h6 : spaceLeft s ≤ adjustedSize s newSize0)
    (h7 : s.m_size ≤ lenNeededFor s newSize0) :
    ∃ k, 1 ≤ k
      ∧ (ensureMemorySize env s newSize0).2.m_size = s.m_size * 2 ^ k
      ∧ lenNeededFor s newSize0 + futureUsageFor s newSize0
          < (ensureMemorySize env s newSize0).2.m_size
      ∧ lenNeededFor s newSize0 ≤ (ensureMemorySize env s newSize0).2.m_size := by
  have h1' : ¬ isFileValid s = false := by simp [h1]
  have hsz : 0 < s.m_size := by
    simp only [isFileValid, Bool.and_eq_true, decide_eq_true_eq] at h1
    exact h1.1.1.2
  obtain ⟨⟨k, hk1, hk2⟩, hgt⟩ :=
    growSize_spec (lenNeededFor s newSize0 + futureUsageFor s newSize0) s.m_size hsz
  simp only [lenNeededFor, adjustedSize, futureUsageFor] at h6 h7 hgt hk2 ⊢
  rw [ensureMemorySize]
  dsimp only
  rw [if_neg h1', if_pos (Or.inl h6), if_neg (by simp [h2]),
      if_pos (Or.inl h7), if_neg (by simp [h3]), if_neg (by simp [h4]), if_neg ?hvalid]
  case hvalid =>
    simp only [isFileValid, Bool.and_eq_true, decide_eq_true_eq] at h1 ⊢
    simp only [h5]
    simp [h1]
    omega
  rw [(doFullWriteBack_projs env _ _).2.2.2.2.2.2.1]
  refine ⟨k, hk1, by simpa using hk2, by simpa using hgt, ?_⟩
  simpa using Nat.le_of_lt (lt_of_le_of_lt (Nat.le_add_right _ _) hgt)


/-- Witness for C5 at `stateC`: appending a 4-byte requirement to the full
8-byte file doubles it per the policy. -/
theorem claim5_witness :
    ∃ k, 1 ≤ k
      ∧ (ensureMemorySize envA stateC 4).2.m_size = stateC.m_size * 2 ^ k
      ∧ lenNeededFor stateC 4 + futureUsageFor stateC 4
          < (ensureMemorySize envA stateC 4).2.m_size
      ∧ lenNeededFor stateC 4 ≤ (ensureMemorySize envA stateC 4).2.m_size :=
  claim5_growth_policy envA stateC 4 (by decide) (by decide) rfl rfl rfl
    (by decide) (by decide)

theorem writeActualSize_actualSize (s : MMKVState) (a c : Nat) (iv : Option Nat) (b : Bool) :
    (writeActualSize s a c iv b).2.m_actualSize = a := by
  unfold writeActualSize oldStyleWriteActualSize
  cases iv <;> dsimp only <;> repeat' split <;> simp

theorem writeActualSize_size (s : MMKVState) (a c : Nat) (iv : Option Nat) (b : Bool) :
    (writeActualSize s a c iv b).2.m_size = s.m_size := by
  unfold writeActualSize oldStyleWriteActualSize
  cases iv <;> dsimp only <;> repeat' split <;> simp

/-- C3: on load, if `meta.actualSize + 4 <= file_size` and the CRC32 of the
record region matches `meta.crcDigest`, the store loads; otherwise it falls
back to the last-confirmed `(actualSize, crcDigest)` pair, and only if that
also fails does it consult the error-strategy callback; when the callback
answers `Recover` on a length error, the actual size is clamped to
`file_size - 4` and a full writeback is scheduled.  Stated as equality of
the observables of `checkDataValid` with the claim-side decision procedure
`checkDataValidClaim`, at meta version `ActualSize` and newer, with a valid
mapping and a legacy header in agreement with the meta size. -/
theorem claim3_checkDataValid_matches_claim (env : FsEnv) (s : MMKVState)
    (hv : MMKVVersionActualSize ≤ s.m_metaInfo.m_version)
    (hp : s.m_ptrValid = true)
    (hl : s.legacyActualSize = s.m_metaInfo.m_actualSize) :
    checkDataObserve (checkDataValid env s) = checkDataValidClaim env s := by
  have h4 : (0 : Nat) < Fixed32Size := by decide
  by_cases hb : s.m_metaInfo.m_actualSize + Fixed32Size ≤ s.m_size
  · have hb0 : s.m_metaInfo.m_actualSize < s.m_size := by omega
    by_cases hc : zlibCrc32 0 (s.region.take s.m_metaInfo.m_actualSize)
        = s.m_metaInfo.m_crcDigest
    · simp [checkDataValid, checkDataValidClaim, checkDataObserve, checkFileCRCValid,
        readActualSize, hv, hp, hb, hb0, hc]
    · by_cases hlb : s.m_metaInfo.lastActualSize + Fixed32Size ≤ s.m_size
      · have hlb0 : s.m_metaInfo.lastActualSize < s.m_size := by omega
        by_cases hlc : zlibCrc32 0 (s.region.take s.m_metaInfo.lastActualSize)
            = s.m_metaInfo.lastCRCDigest
        · simp [checkDataValid, checkDataValidClaim, checkDataObserve, checkFileCRCValid,
            checkLastConfirmedInfo, checkLastConfirmedAux, readActualSize,
            writeActualSize_actualSize, hv, hp, hl, hb, hb0, hc, hlb, hlb0, hlc]
        · by_cases hstrat : env.crcFailStrategy = ErrorStrategy.OnErrorRecover <;>
            simp [checkDataValid, checkDataValidClaim, checkDataObserve, checkFileCRCValid,
              checkLastConfirmedInfo, checkLastConfirmedAux, readActualSize,
              writeActualSize_actualSize, hv, hp, hl, hb, hb0, hc, hlb, hlb0, hlc, hstrat]
      · by_cases hstrat : env.crcFailStrategy = ErrorStrategy.OnErrorRecover <;>
          simp [checkDataValid, checkDataValidClaim, checkDataObserve, checkFileCRCValid,
            checkLastConfirmedInfo, checkLastConfirmedAux, readActualSize,
            writeActualSize_actualSize, hv, hp, hl, hb, hb0, hc, hstrat,
            show ¬ (s.m_metaInfo.lastActualSize < s.m_size
              ∧ s.m_metaInfo.lastActualSize + Fixed32Size ≤ s.m_size) from by omega,
            show ¬ (s.m_metaInfo.lastActualSize + Fixed32Size ≤ s.m_size
              ∧ zlibCrc32 0 (s.region.take s.m_metaInfo.lastActualSize)
                 = s.m_metaInfo.lastCRCDigest) from fun hx => hlb hx.1]
  · have hnb : ¬ (s.m_metaInfo.m_actualSize < s.m_size
        ∧ s.m_metaInfo.m_actualSize + Fixed32Size ≤ s.m_size) := by omega
    by_cases hlb : s.m_metaInfo.lastActualSize + Fixed32Size ≤ s.m_size
    · have hlb0 : s.m_metaInfo.lastActualSize < s.m_size := by omega
      by_cases hlc : zlibCrc32 0 (s.region.take s.m_metaInfo.lastActualSize)
          = s.m_metaInfo.lastCRCDigest
      · simp [checkDataValid, checkDataValidClaim, checkDataObserve, checkFileCRCValid,
          checkLastConfirmedInfo, checkLastConfirmedAux, readActualSize,
          writeActualSize_actualSize, hv, hp, hl, hb, hnb, hlb, hlb0, hlc]
      · by_cases hstrat : env.lengthErrorStrategy = ErrorStrategy.OnErrorRecover <;>
          simp [checkDataValid, checkDataValidClaim, checkDataObserve, checkFileCRCValid,
            checkLastConfirmedInfo, checkLastConfirmedAux, readActualSize,
            writeActualSize_actualSize, hv, hp, hl, hb, hnb, hlb, hlb0, hlc, hstrat]
    · by_cases hstrat : env.lengthErrorStrategy = ErrorStrategy.OnErrorRecover <;>
        simp [checkDataValid, checkDataValidClaim, checkDataObserve, checkFileCRCValid,
          checkLastConfirmedInfo, checkLastConfirmedAux, readActualSize,
          writeActualSize_actualSize, hv, hp, hl, hb, hnb, hstrat,
          show ¬ (s.m_metaInfo.lastActualSize < s.m_size
            ∧ s.m_metaInfo.lastActualSize + Fixed32Size ≤ s.m_size) from by omega,
          show ¬ (s.m_metaInfo.lastActualSize + Fixed32Size ≤ s.m_size
            ∧ zlibCrc32 0 (s.region.take s.m_metaInfo.lastActualSize)
               = s.m_metaInfo.lastCRCDigest) from fun hx => hlb hx.1]

/-- Witness for C3 at `stateB`, whose record region matches its meta
digest. -/
theorem claim3_witness :
    checkDataObserve (checkDataValid envA stateB) = checkDataValidClaim envA stateB :=
  claim3_checkDataValid_matches_claim envA stateB (by decide) (by decide) (by decide)


/-- C6: under `checkLoadData`, a meta-sequence mismatch clears the memory
state and fully reloads from file; a CRC-only mismatch fully reloads when
the file size changed externally and otherwise performs a partial load of
just the appended byte range — extending the rolling CRC incrementally,
decoding the appended records into the dictionary and advancing the cursor
— falling back to a full reload when the incremental CRC does not match
`meta.crcDigest`; with no mismatch nothing happens.  Stated as equality of
`checkLoadData` with the claim-side procedure `checkLoadDataClaim` on a
loaded, inter-process, unencrypted regular-file store whose meta page is at
version `ActualSize` and records an appended in-bounds actual size. -/
theorem claim6_checkLoadData_matches_claim (fuel : Nat) (env : FsEnv) (s : MMKVState)
    (h1 : s.m_needLoadFromFile = false) (h2 : s.m_isInterProcess = true)
    (h3 : s.metaFileValid = true) (h4 : s.m_isAshmem = false)
    (h5 : s.m_crypter = none)
    (h6 : MMKVVersionActualSize ≤ s.metaFileContent.m_version)
    (h7 : 0 < s.metaFileContent.m_actualSize)
    (h8 : s.metaFileContent.m_actualSize + Fixed32Size ≤ s.m_size)
    (h9 : s.m_actualSize < s.metaFileContent.m_actualSize) :
    checkLoadData fuel env s = checkLoadDataClaim fuel env s := by
  have h4' : (0 : Nat) < Fixed32Size := by decide
  have hbound : s.metaFileContent.m_actualSize < s.m_size := by omega
  by_cases hseq : s.m_metaInfo.m_sequence = s.metaFileContent.m_sequence
  · by_cases hcrc : s.m_metaInfo.m_crcDigest = s.metaFileContent.m_crcDigest
    · simp [checkLoadData, checkLoadDataClaim, h1, h2, h3, hseq, hcrc]
    · by_cases hsz : s.m_size = env.statSize
      · have hb2 : s.metaFileContent.m_actualSize < env.statSize := hsz ▸ hbound
        have h82 : s.metaFileContent.m_actualSize + Fixed32Size ≤ env.statSize := hsz ▸ h8
        by_cases hmatch : zlibCrc32 s.m_crcDigest
            ((s.region.drop s.m_actualSize).take
              (s.metaFileContent.m_actualSize - s.m_actualSize))
            = s.metaFileContent.m_crcDigest
        · simp [checkLoadData, checkLoadDataClaim, partialLoadFromFile, readActualSize,
            h1, h2, h3, h4, h5, h6, h7, h8, h9, hseq, hcrc, hsz, hbound, hb2, h82, hmatch]
        · simp [checkLoadData, checkLoadDataClaim, partialLoadFromFile, readActualSize,
            h1, h2, h3, h4, h5, h6, h7, h8, h9, hseq, hcrc, hsz, hbound, hb2, h82, hmatch]
      · simp [checkLoadData, checkLoadDataClaim, h1, h2, h3, h4, hseq, hcrc, hsz]
  · simp [checkLoadData, checkLoadDataClaim, h1, h2, h3, hseq]

/-- Witness for C6 at `stateD`: the CRC-only mismatch triggers the partial
load of the appended range. -/
theorem claim6_witness :
    checkLoadData 3 envA stateD = checkLoadDataClaim 3 envA stateD :=
  claim6_checkLoadData_matches_claim 3 envA stateD (by decide) (by decide) (by decide)
    (by decide) (by decide) (by decide) (by decide) (by decide) (by decide)


theorem shrinkLoopAux_le (fuel : Nat) : ∀ size actualSize : Nat, size ≤ fuel →
    shrinkLoopAux fuel size actualSize ≤ (actualSize + Fixed32Size) * 2 := by
  induction fuel with
  | zero =>
      intro size actualSize h
      have hz : size = 0 := by omega
      subst hz
      simp [shrinkLoopAux]
  | succ n ih =>
      intro size actualSize h
      simp only [shrinkLoopAux]
      split
      case isTrue hgt =>
          refine ih (size / 2) actualSize ?_
          have h8 : (0 : Nat) < Fixed32Size := by decide
          omega
      case isFalse hle => omega

theorem shrinkLoop_le (size actualSize : Nat) :
    shrinkLoop size actualSize ≤ (actualSize + Fixed32Size) * 2 :=
  shrinkLoopAux_le size size actualSize (Nat.le_refl size)

/-- C7 amended: for a key list of length at least two,
`removeValuesForKeys` erases all the listed keys from the in-memory
dictionary and then performs a single `fullWriteback`; a one-element list
instead delegates to `removeValueForKey`, which appends one tombstone
record. -/
theorem claim7_amended_removeMany (fuel : Nat) (env : FsEnv) (s : MMKVState)
    (k1 k2 : Bytes) (rest : List Bytes) :
    removeValuesForKeys fuel env s (k1 :: k2 :: rest)
      = removeManyClaim fuel env s (k1 :: k2 :: rest)
    ∧ ((k1 :: k2 :: rest).all (fun k =>
        (dicFind ((k1 :: k2 :: rest).foldl dicErase
            (checkLoadData fuel env s).m_dic) k).isNone)) = true := by
  constructor
  · simp [removeValuesForKeys, removeManyClaim]
  · rw [List.all_eq_true]
    intro k hk
    have h0 := dicFind_foldl_erase (k1 :: k2 :: rest) k hk
        ((checkLoadData fuel env s).m_dic)
    simp only [List.foldl_cons] at h0
    simp [h0]

/-- C8 amended: `trim` is a no-op for the anonymous-memory variant;
otherwise, after the change check, it delegates to `clearAll` at zero
actual size, returns unchanged when the file is at most one page, and only
then performs a full writeback followed by halving the file size while
`file_size > 2 x (actualSize + 4)`, truncation and re-mapping; the halving
loop always ends at or below `2 x (actualSize + 4)`. -/
theorem claim8_amended_trim (fuel : Nat) (env : FsEnv) (s : MMKVState)
    (h1 : s.m_needLoadFromFile = false) (h2 : s.m_isInterProcess = false)
    (h3 : env.ftruncateOk = true) :
    trim fuel env s = trimClaimAmended fuel env s
    ∧ shrinkLoop ((fullWriteback fuel env s).2).m_size
        ((fullWriteback fuel env s).2).m_actualSize
      ≤ (((fullWriteback fuel env s).2).m_actualSize + Fixed32Size) * 2 := by
  refine ⟨?_, shrinkLoop_le _ _⟩
  by_cases hash : s.m_isAshmem = true
  · simp [trim, trimClaimAmended, hash]
  · have hid := checkLoadData_id fuel env s h1 h2
    by_cases hz : s.m_actualSize = 0
    · simp [trim, trimClaimAmended, hash, hid, hz]
    · by_cases hsz : s.m_size ≤ DEFAULT_MMAP_SIZE
      · simp [trim, trimClaimAmended, hash, hid, hz, hsz]
      · by_cases heq : shrinkLoop ((fullWriteback fuel env s).2).m_size
            ((fullWriteback fuel env s).2).m_actualSize
            = ((fullWriteback fuel env s).2).m_size
        · simp [trim, trimClaimAmended, hash, hid, hz, hsz, h3, heq]
        · have hne : ¬ ((fullWriteback fuel env s).2.m_size
              = shrinkLoop ((fullWriteback fuel env s).2).m_size
                  ((fullWriteback fuel env s).2).m_actualSize) :=
            fun h => heq h.symm
          simp [trim, trimClaimAmended, hash, hid, hz, hsz, h3, heq, hne]

/-- Witness for C8 (amended) at `stateE`: the writeback-then-halve path and
the halving bound, instantiated concretely. -/
theorem claim8_witness :
    trim 5 envA stateE = trimClaimAmended 5 envA stateE
    ∧ shrinkLoop ((fullWriteback 5 envA stateE).2).m_size
        ((fullWriteback 5 envA stateE).2).m_actualSize
      ≤ (((fullWriteback 5 envA stateE).2).m_actualSize + Fixed32Size) * 2 :=
  claim8_amended_trim 5 envA stateE rfl rfl rfl


theorem writeActualSize_seqs (s : MMKVState) (a c : Nat) (iv : Option Nat) (b : Bool) :
    (writeActualSize s a c iv b).2.m_metaInfo.m_sequence
      = (if s.metaFileValid = true ∧ b = true then s.m_metaInfo.m_sequence + 1
         else s.m_metaInfo.m_sequence)
    ∧ (writeActualSize s a c iv b).2.metaFileContent.m_sequence
      = (if s.metaFileValid = true
            ∧ (s.m_metaInfo.m_version < MMKVVersionSequence ∨ iv.isSome = true ∨ b = true)
         then (writeActualSize s a c iv b).2.m_metaInfo.m_sequence
         else s.metaFileContent.m_sequence) := by
  unfold writeActualSize oldStyleWriteActualSize
  cases iv <;> cases b <;> dsimp only <;> repeat' split <;> simp_all

theorem writeActualSize_seqLow (s : MMKVState) (a c : Nat) (iv : Option Nat) (b : Bool) :
    seqLow s ≤ seqLow (writeActualSize s a c iv b).2 := by
  obtain ⟨e1, e2⟩ := writeActualSize_seqs s a c iv b
  unfold seqLow at *
  split at e1 <;> split at e2 <;> omega

theorem writeActualSize_seqLow_inc (s : MMKVState) (a c : Nat) (iv : Option Nat)
    (h : s.metaFileValid = true) :
    seqLow (writeActualSize s a c iv true).2 = s.m_metaInfo.m_sequence + 1 := by
  obtain ⟨e1, e2⟩ := writeActualSize_seqs s a c iv true
  unfold seqLow at *
  simp [h] at e1 e2
  omega

theorem checkFileCRCValid_seqLow (s : MMKVState) (a c : Nat) :
    seqLow (checkFileCRCValid s a c).2 = seqLow s := by
  unfold checkFileCRCValid
  split <;> rfl

set_option maxHeartbeats 1000000 in
theorem checkLastConfirmedAux_seqLow (s : MMKVState) :
    seqLow s ≤ seqLow (checkLastConfirmedAux s).2 := by
  unfold checkLastConfirmedAux
  dsimp only
  repeat' split
  all_goals try dsimp only
  all_goals
    first
    | exact Nat.le_refl _
    | ((try simp only [checkFileCRCValid_seqLow]); exact Nat.le_refl _)
    | (refine Nat.le_trans ?_ (writeActualSize_seqLow _ _ _ _ _)
       (try simp only [checkFileCRCValid_seqLow]); exact Nat.le_refl _)

set_option maxHeartbeats 1000000 in
theorem checkLastConfirmedInfo_seqLow (s : MMKVState) :
    seqLow s ≤ seqLow (checkLastConfirmedInfo s).2 := by
  unfold checkLastConfirmedInfo
  dsimp only
  repeat' split
  all_goals try dsimp only
  all_goals
    first
    | exact Nat.le_refl _
    | ((try simp only [checkFileCRCValid_seqLow]); exact Nat.le_refl _)
    | (refine Nat.le_trans ?_ (writeActualSize_seqLow _ _ _ _ _)
       (try simp only [checkFileCRCValid_seqLow]); exact Nat.le_refl _)
    | (refine Nat.le_trans ?_ (checkLastConfirmedAux_seqLow _)
       (try simp only [checkFileCRCValid_seqLow]); exact Nat.le_refl _)

set_option maxHeartbeats 1000000 in
theorem checkDataValid_seqLow (env : FsEnv) (s : MMKVState) :
    seqLow s ≤ seqLow (checkDataValid env s).state := by
  unfold checkDataValid
  dsimp only
  repeat' split
  all_goals try dsimp only
  all_goals
    first
    | exact Nat.le_refl _
    | ((try simp only [checkFileCRCValid_seqLow]); exact Nat.le_refl _)
    | (refine Nat.le_trans ?_ (checkLastConfirmedInfo_seqLow _)
       (try simp only [checkFileCRCValid_seqLow]); exact Nat.le_refl _)

theorem clearMemoryState_seqs (s : MMKVState) :
    (clearMemoryState s).m_metaInfo.m_sequence = s.m_metaInfo.m_sequence
    ∧ (clearMemoryState s).metaFileContent.m_sequence = s.metaFileContent.m_sequence := by
  unfold clearMemoryState
  cases h : s.m_crypter <;> dsimp only <;> repeat' split <;> simp_all

theorem clearMemoryState_seqLow (s : MMKVState) :
    seqLow (clearMemoryState s) = seqLow s := by
  obtain ⟨e1, e2⟩ := clearMemoryState_seqs s
  unfold seqLow
  omega

theorem cryptReset_seqLow (s : MMKVState) : seqLow (cryptReset s) = seqLow s := by
  unfold cryptReset
  cases h : s.m_crypter
  · rfl
  · dsimp only
    split <;> rfl

theorem seqLow_read (s : MMKVState) :
    seqLow s ≤ seqLow { s with m_metaInfo := s.metaFileContent } := by
  unfold seqLow
  dsimp only
  omega

theorem recaculateCRCDigestWithIV_seqLow (s : MMKVState) (iv : Option Nat) :
    seqLow s ≤ seqLow (recaculateCRCDigestWithIV s iv) := by
  unfold recaculateCRCDigestWithIV
  split
  · refine Nat.le_trans ?_ (writeActualSize_seqLow _ _ _ _ _)
    exact Nat.le_refl _
  · exact Nat.le_refl _

theorem updateCRCDigest_seqLow (s : MMKVState) (bytes : Bytes) :
    seqLow s ≤ seqLow (updateCRCDigest s bytes) := by
  unfold updateCRCDigest
  refine Nat.le_trans ?_ (writeActualSize_seqLow _ _ _ _ _)
  exact Nat.le_refl _

theorem doFullWriteBack_seqLow (env : FsEnv) (s : MMKVState) (d : Bytes) :
    seqLow s ≤ seqLow (doFullWriteBack env s d).2 := by
  unfold doFullWriteBack
  cases h : s.m_crypter <;> dsimp only
  all_goals
    refine Nat.le_trans ?_ (recaculateCRCDigestWithIV_seqLow _ _)
    exact Nat.le_refl _

set_option maxHeartbeats 1000000 in
theorem ensureMemorySize_seqLow (env : FsEnv) (s : MMKVState) (n : Nat) :
    seqLow s ≤ seqLow (ensureMemorySize env s n).2 := by
  unfold ensureMemorySize
  dsimp only
  repeat' split
  all_goals try dsimp only
  all_goals
    first
    | exact Nat.le_refl _
    | exact doFullWriteBack_seqLow _ _ _
    | (refine Nat.le_trans ?_ (doFullWriteBack_seqLow _ _ _); exact Nat.le_refl _)

set_option maxHeartbeats 1000000 in
theorem appendDataWithKey_seqLow (env : FsEnv) (s : MMKVState) (data key : Bytes) :
    seqLow s ≤ seqLow (appendDataWithKey env s data key).2 := by
  unfold appendDataWithKey
  dsimp only
  split
  · exact ensureMemorySize_seqLow _ _ _
  · split
    all_goals
      refine Nat.le_trans (ensureMemorySize_seqLow env s
        (key.length + pbRawVarint32Size key.length
          + data.length + pbRawVarint32Size data.length)) ?_
      refine Nat.le_trans ?_ (updateCRCDigest_seqLow _ _)
      exact Nat.le_refl _

theorem cryptReset_metaInfo (s : MMKVState) : (cryptReset s).m_metaInfo = s.m_metaInfo := by
  unfold cryptReset
  cases h : s.m_crypter
  · rfl
  · dsimp only
    split <;> rfl

theorem cryptReset_metaFileContent (s : MMKVState) :
    (cryptReset s).metaFileContent = s.metaFileContent := by
  unfold cryptReset
  cases h : s.m_crypter
  · rfl
  · dsimp only
    split <;> rfl

set_option maxHeartbeats 2000000 in
theorem loadFromAshmem_seqLow (env : FsEnv) (s : MMKVState) :
    seqLow s ≤ seqLow (loadFromAshmem env s) := by
  unfold loadFromAshmem
  dsimp only
  repeat' split
  all_goals try dsimp only
  all_goals
    first
    | exact Nat.le_refl _
    | (simp only [seqLow, cryptReset_metaInfo, cryptReset_metaFileContent]; omega)
    | (refine Nat.le_trans ?_ (checkDataValid_seqLow env _)
       simp only [seqLow, cryptReset_metaInfo, cryptReset_metaFileContent]; omega)
    | (refine Nat.le_trans ?_ (writeActualSize_seqLow _ _ _ _ _)
       simp only [seqLow, cryptReset_metaInfo, cryptReset_metaFileContent]; omega)
    | (refine Nat.le_trans ?_ (writeActualSize_seqLow _ _ _ _ _)
       refine Nat.le_trans ?_ (checkDataValid_seqLow env _)
       simp only [seqLow, cryptReset_metaInfo, cryptReset_metaFileContent]; omega)


set_option maxHeartbeats 1000000 in
theorem seqLow_trio (fuel : Nat) :
    (∀ env s, seqLow s ≤ seqLow (loadFromFile fuel env s))
    ∧ (∀ env s, seqLow s ≤ seqLow (clearAll fuel env s))
    ∧ (∀ env s, seqLow s ≤ seqLow (fullWriteback fuel env s).2) := by
  induction fuel with
  | zero =>
      refine ⟨?_, ?_, ?_⟩ <;> intro env s <;>
        simp [loadFromFile, clearAll, fullWriteback]
  | succ n ih =>
      obtain ⟨ihL, ihC, ihF⟩ := ih
      refine ⟨?_, ?_, ?_⟩
      · intro env s
        rw [loadFromFile]
        by_cases hash : s.m_isAshmem = true
        · rw [if_pos hash]
          exact loadFromAshmem_seqLow env s
        · rw [if_neg hash]
          lift_lets
          extract_lets sA s1 s2 s3 tg s4 s5 r s6a raw p sp s7a s8 s6b s7b
          have hA : seqLow s ≤ seqLow sA := by
            unfold_let sA
            split
            · exact seqLow_read s
            · exact Nat.le_refl _
          have e1 : seqLow s1 = seqLow sA := by
            unfold_let s1
            rw [cryptReset_seqLow]
          have e2 : seqLow s2 = seqLow s1 := rfl
          have e3 : seqLow s3 = seqLow s2 := rfl
          have e4 : seqLow s4 = seqLow s3 := by
            unfold_let s4
            split
            · split <;> rfl
            · rfl
          have e5 : seqLow s5 = seqLow s4 := rfl
          have hr : seqLow s5 ≤ seqLow r.state := by
            unfold_let r
            exact checkDataValid_seqLow env s5
          have e6a : seqLow s6a = seqLow r.state := rfl
          have ep : seqLow p.2 = seqLow s6a := by
            unfold_let p
            cases h : s6a.m_crypter <;> dsimp only <;> rfl
          have e7a : seqLow s7a = seqLow p.2 := rfl
          have h8 : seqLow s7a ≤ seqLow s8 := by
            unfold_let s8
            split
            · exact ihF env s7a
            · exact Nat.le_refl _
          have e6b : seqLow s6b = seqLow r.state := rfl
          have h7b : seqLow s6b ≤ seqLow s7b := by
            unfold_let s7b
            split <;> exact writeActualSize_seqLow _ _ _ _ _
          split
          · have h : seqLow s ≤ seqLow s2 := by omega
            exact h
          · split
            · have h : seqLow s ≤ seqLow s5 := by omega
              exact h
            · split
              · have h : seqLow s ≤ seqLow s8 := by omega
                exact h
              · have h : seqLow s ≤ seqLow s7b := by omega
                exact h
      · intro env s
        rw [clearAll]
        lift_lets
        extract_lets s1 s2 s3 s4 s5
        have e1 : seqLow s1 = seqLow s := by
          unfold_let s1
          split <;> rfl
        have e2 : seqLow s2 = seqLow s1 := by
          unfold_let s2
          split
          · split <;> rfl
          · rfl
        have e3 : seqLow s3 = seqLow s2 := by
          unfold_let s3
          cases h : s2.m_crypter <;> dsimp only <;> rfl
        have h4 : seqLow s3 ≤ seqLow s4 := by
          unfold_let s4
          exact writeActualSize_seqLow _ _ _ _ _
        have e5 : seqLow s5 = seqLow s4 := by
          unfold_let s5
          rw [clearMemoryState_seqLow]
        split
        · refine Nat.le_trans ?_ (ihL env _)
          exact Nat.le_refl _
        · refine Nat.le_trans ?_ (ihL env s5)
          omega
      · intro env s
        rw [fullWriteback]
        lift_lets
        extract_lets allData
        repeat' split
        all_goals
          first
          | exact Nat.le_refl _
          | exact ihC env s
          | exact doFullWriteBack_seqLow env s _
          | exact ensureMemorySize_seqLow env s _
theorem partialLoadFromFile_seqLow (fuel : Nat) (env : FsEnv) (s : MMKVState) :
    seqLow s ≤ seqLow (partialLoadFromFile fuel env s) := by
  unfold partialLoadFromFile
  lift_lets
  extract_lets s1 old s2 bufferSize buf s3 p
  have h1 : seqLow s ≤ seqLow s1 := by
    unfold_let s1
    exact seqLow_read s
  have e2 : seqLow s2 = seqLow s1 := rfl
  have e3 : seqLow s3 = seqLow s2 := rfl
  have ep : seqLow p.2 = seqLow s3 := by
    unfold_let p
    cases h : s3.m_crypter <;> dsimp only <;> rfl
  repeat' split
  all_goals
    first
    | (have h : seqLow s ≤ seqLow p.2 := by omega
       exact h)
    | (refine Nat.le_trans ?_ ((seqLow_trio fuel).1 env _)
       rw [clearMemoryState_seqLow]
       omega)

theorem checkLoadData_seqLow (fuel : Nat) (env : FsEnv) (s : MMKVState) :
    seqLow s ≤ seqLow (checkLoadData fuel env s) := by
  unfold checkLoadData
  dsimp only
  repeat' split
  all_goals
    first
    | exact Nat.le_refl _
    | exact partialLoadFromFile_seqLow fuel env s
    | (refine Nat.le_trans ?_ ((seqLow_trio fuel).1 env _)
       first
       | exact Nat.le_refl _
       | rw [clearMemoryState_seqLow])

theorem getDataForKey_seqLow (fuel : Nat) (env : FsEnv) (s : MMKVState) (key : Bytes) :
    seqLow s ≤ seqLow (getDataForKey fuel env s key).2 := by
  unfold getDataForKey
  dsimp only
  split <;> exact checkLoadData_seqLow fuel env s

theorem containsKey_seqLow (fuel : Nat) (env : FsEnv) (s : MMKVState) (key : Bytes) :
    seqLow s ≤ seqLow (containsKey fuel env s key).2 := by
  unfold containsKey
  exact checkLoadData_seqLow fuel env s

theorem mmkvCount_seqLow (fuel : Nat) (env : FsEnv) (s : MMKVState) :
    seqLow s ≤ seqLow (mmkvCount fuel env s).2 := by
  unfold mmkvCount
  exact checkLoadData_seqLow fuel env s

theorem setDataForKey_seqLow (fuel : Nat) (env : FsEnv) (s : MMKVState) (data key : Bytes) :
    seqLow s ≤ seqLow (setDataForKey fuel env s data key).2 := by
  unfold setDataForKey
  dsimp only
  repeat' split
  all_goals try dsimp only
  all_goals
    first
    | exact Nat.le_refl _
    | (refine Nat.le_trans (checkLoadData_seqLow fuel env s) ?_
       refine Nat.le_trans ?_ (appendDataWithKey_seqLow env _ data key)
       exact Nat.le_refl _)

theorem removeDataForKey_seqLow (env : FsEnv) (s : MMKVState) (key : Bytes) :
    seqLow s ≤ seqLow (removeDataForKey env s key).2 := by
  unfold removeDataForKey
  dsimp only
  repeat' split
  all_goals
    first
    | exact Nat.le_refl _
    | (refine Nat.le_trans ?_ (appendDataWithKey_seqLow env _ _ _)
       exact Nat.le_refl _)

theorem removeValueForKey_seqLow (fuel : Nat) (env : FsEnv) (s : MMKVState) (key : Bytes) :
    seqLow s ≤ seqLow (removeValueForKey fuel env s key) := by
  unfold removeValueForKey
  dsimp only
  split
  · exact Nat.le_refl _
  · refine Nat.le_trans (checkLoadData_seqLow fuel env s) ?_
    exact removeDataForKey_seqLow env _ key

theorem removeValuesForKeys_seqLow (fuel : Nat) (env : FsEnv) (s : MMKVState)
    (keys : List Bytes) :
    seqLow s ≤ seqLow (removeValuesForKeys fuel env s keys) := by
  unfold removeValuesForKeys
  split
  · exact Nat.le_refl _
  · exact removeValueForKey_seqLow fuel env s _
  · refine Nat.le_trans (checkLoadData_seqLow fuel env s) ?_
    refine Nat.le_trans ?_ ((seqLow_trio fuel).2.2 env _)
    exact Nat.le_refl _

theorem reKey_seqLow (fuel : Nat) (env : FsEnv) (s : MMKVState) (cryptKey : Bytes) :
    seqLow s ≤ seqLow (reKey fuel env s cryptKey).2 := by
  unfold reKey
  dsimp only
  repeat' split
  all_goals
    first
    | exact checkLoadData_seqLow fuel env s
    | (refine Nat.le_trans (checkLoadData_seqLow fuel env s) ?_
       refine Nat.le_trans ?_ ((seqLow_trio fuel).2.2 env _)
       exact Nat.le_refl _)

theorem trim_seqLow (fuel : Nat) (env : FsEnv) (s : MMKVState) :
    seqLow s ≤ seqLow (trim fuel env s) := by
  unfold trim
  dsimp only
  repeat' split
  all_goals try dsimp only
  all_goals
    first
    | exact Nat.le_refl _
    | exact checkLoadData_seqLow fuel env s
    | (refine Nat.le_trans (checkLoadData_seqLow fuel env s) ?_
       exact (seqLow_trio fuel).2.1 env _)
    | (refine Nat.le_trans (checkLoadData_seqLow fuel env s) ?_
       refine Nat.le_trans ?_ ((seqLow_trio fuel).2.2 env _)
       exact Nat.le_refl _)

theorem stepOp_seqLow (fuel : Nat) (env : FsEnv) (op : MMKVOp) (s : MMKVState) :
    seqLow s ≤ seqLow (stepOp fuel env op s) := by
  cases op with
  | setData data key => exact setDataForKey_seqLow fuel env s data key
  | removeData key => exact removeDataForKey_seqLow env s key
  | removeValue key => exact removeValueForKey_seqLow fuel env s key
  | removeMany keys => exact removeValuesForKeys_seqLow fuel env s keys
  | getData key => exact getDataForKey_seqLow fuel env s key
  | containsOp key => exact containsKey_seqLow fuel env s key
  | countOp => exact mmkvCount_seqLow fuel env s
  | clearAllOp => exact (seqLow_trio fuel).2.1 env s
  | fullWritebackOp => exact (seqLow_trio fuel).2.2 env s
  | reKeyOp key => exact reKey_seqLow fuel env s key
  | trimOp => exact trim_seqLow fuel env s
  | checkLoad => exact checkLoadData_seqLow fuel env s

theorem varintEncodeAux_length_pos (fuel n : Nat) : 0 < (varintEncodeAux fuel n).length := by
  cases fuel with
  | zero => simp [varintEncodeAux]
  | succ m =>
      unfold varintEncodeAux
      split <;> simp

theorem encodeMap_length_pos (d : Dic) (h : d ≠ []) : 0 < (encodeMap d).length := by
  cases d with
  | nil => exact absurd rfl h
  | cons kv rest =>
      obtain ⟨k, v⟩ := kv
      have h1 := varintEncodeAux_length_pos k.length k.length
      simp [encodeMap, encodeRecord, varintEncode]
      omega

theorem seqLow_setFWB (x : MMKVState) (b : Bool) :
    seqLow { x with m_hasFullWriteback := b } = seqLow x := rfl

theorem recaculateCRCDigestWithIV_seqLow_inc (s : MMKVState) (iv : Option Nat)
    (hp : s.m_ptrValid = true) (hm : s.metaFileValid = true) :
    seqLow (recaculateCRCDigestWithIV s iv) = s.m_metaInfo.m_sequence + 1 := by
  unfold recaculateCRCDigestWithIV
  rw [if_pos hp]
  dsimp only
  simp only [IncreaseSequence]
  rw [writeActualSize_seqLow_inc]
  exact hm

theorem doFullWriteBack_seqLow_inc (env : FsEnv) (s : MMKVState) (d : Bytes)
    (hp : s.m_ptrValid = true) (hm : s.metaFileValid = true) :
    seqLow (doFullWriteBack env s d).2 = s.m_metaInfo.m_sequence + 1 := by
  unfold doFullWriteBack
  cases h : s.m_crypter <;> dsimp only
  all_goals rw [seqLow_setFWB, recaculateCRCDigestWithIV_seqLow_inc]
  all_goals first | rfl | exact hp | exact hm

theorem clearAll_seq_inc (fuel : Nat) (env : FsEnv) (s : MMKVState)
    (hn : s.m_needLoadFromFile = false) (hm : s.metaFileValid = true) :
    s.m_metaInfo.m_sequence < (clearAll (Nat.succ fuel) env s).m_metaInfo.m_sequence := by
  rw [clearAll]
  rw [if_neg (by simp [hn])]
  lift_lets
  extract_lets s1 s2 s3 s4 s5
  have f1 : s1.metaFileValid = s.metaFileValid ∧ s1.m_metaInfo = s.m_metaInfo := by
    unfold_let s1
    split <;> exact ⟨rfl, rfl⟩
  have f2 : s2.metaFileValid = s1.metaFileValid ∧ s2.m_metaInfo = s1.m_metaInfo := by
    unfold_let s2
    split
    · split <;> exact ⟨rfl, rfl⟩
    · exact ⟨rfl, rfl⟩
  have f3 : s3.metaFileValid = s2.metaFileValid ∧ s3.m_metaInfo = s2.m_metaInfo := by
    unfold_let s3
    cases h : s2.m_crypter <;> dsimp only <;> exact ⟨rfl, rfl⟩
  have h4 : seqLow s4 = s3.m_metaInfo.m_sequence + 1 := by
    unfold_let s4
    simp only [IncreaseSequence]
    exact writeActualSize_seqLow_inc _ _ _ _ (by rw [f3.1, f2.1, f1.1]; exact hm)
  have h5 : seqLow s5 = seqLow s4 := by
    unfold_let s5
    rw [clearMemoryState_seqLow]
  refine Nat.lt_of_lt_of_le ?_
    (Nat.le_trans ((seqLow_trio fuel).1 env _) (Nat.min_le_left _ _))
  have e : s3.m_metaInfo.m_sequence = s.m_metaInfo.m_sequence := by
    rw [f3.2, f2.2, f1.2]
  omega

theorem fullWriteback_seq_inc (fuel : Nat) (env : FsEnv) (s : MMKVState)
    (h1 : s.m_hasFullWriteback = false) (h2 : s.m_needLoadFromFile = false)
    (h3 : isFileValid s = true) (h4 : s.m_dic ≠ [])
    (h5 : (encodeMap s.m_dic).length + Fixed32Size ≤ s.m_size)
    (hm : s.metaFileValid = true) :
    s.m_metaInfo.m_sequence <
      (fullWriteback (Nat.succ fuel) env s).2.m_metaInfo.m_sequence := by
  have hp : s.m_ptrValid = true := by
    simp only [isFileValid, Bool.and_eq_true] at h3
    exact h3.2
  rw [fullWriteback]
  rw [if_neg (by simp [h1]), if_neg (by simp [h2]), if_neg (by simp [h3]), if_neg h4]
  dsimp only
  rw [if_pos (encodeMap_length_pos _ h4), if_pos h5]
  have hinc := doFullWriteBack_seqLow_inc env s (encodeMap s.m_dic) hp hm
  have hle : seqLow (doFullWriteBack env s (encodeMap s.m_dic)).2 ≤
      (doFullWriteBack env s (encodeMap s.m_dic)).2.m_metaInfo.m_sequence :=
    Nat.min_le_left _ _
  omega

theorem reKey_seq_inc (fuel : Nat) (env : FsEnv) (s : MMKVState) (cryptKey : Bytes)
    (hload : s.m_needLoadFromFile = false) (hip : s.m_isInterProcess = false)
    (hc : s.m_crypter = none) (hk : cryptKey ≠ [])
    (h1 : s.m_hasFullWriteback = false) (h3 : isFileValid s = true) (h4 : s.m_dic ≠ [])
    (h5 : (encodeMap s.m_dic).length + Fixed32Size ≤ s.m_size)
    (hm : s.metaFileValid = true) :
    s.m_metaInfo.m_sequence <
      (reKey (Nat.succ fuel) env s cryptKey).2.m_metaInfo.m_sequence := by
  have hcl : checkLoadData (Nat.succ fuel) env s = s := by
    unfold checkLoadData
    rw [if_neg (by simp [hload]), if_pos hip]
  unfold reKey
  dsimp only
  rw [hcl, hc]
  dsimp only
  rw [if_pos hk]
  exact fullWriteback_seq_inc fuel env
    { s with m_crypter := some (newCrypter cryptKey) } h1 hload h3 h4 h5 hm

/-- C2 (amended): `meta.sequence` never decreases across any modelled
operation on a store whose mapped meta page is valid and mirrors the
in-memory sequence; `clearAll` strictly increases it whenever the meta
file is valid and no reload is pending; and `fullWriteback` and `reKey`
strictly increase it exactly when they actually rewrite the store — here
under the conditions making the rewrite happen (no writeback already
recorded, no pending reload, valid data file, a non-empty dictionary that
fits in place, and for `reKey` a fresh non-empty key on a plaintext
single-process store) — while the short-circuit paths exhibited by the
counterexample leave it unchanged. -/
theorem claim2_amended (fuel : Nat) (env : FsEnv) (op : MMKVOp)
    (s sc sf : MMKVState) (cryptKey : Bytes)
    (hcoh : SeqCoherent s) (hmv : s.metaFileValid = true)
    (hc1 : sc.m_needLoadFromFile = false) (hc2 : sc.metaFileValid = true)
    (hf1 : sf.m_hasFullWriteback = false) (hf2 : sf.m_needLoadFromFile = false)
    (hf3 : isFileValid sf = true) (hf4 : sf.m_dic ≠ [])
    (hf5 : (encodeMap sf.m_dic).length + Fixed32Size ≤ sf.m_size)
    (hf6 : sf.metaFileValid = true)
    (hf7 : sf.m_isInterProcess = false) (hf8 : sf.m_crypter = none)
    (hk : cryptKey ≠ []) :
    s.m_metaInfo.m_sequence ≤ (stepOp fuel env op s).m_metaInfo.m_sequence
    ∧ sc.m_metaInfo.m_sequence < (clearAll (Nat.succ fuel) env sc).m_metaInfo.m_sequence
    ∧ sf.m_metaInfo.m_sequence <
        (fullWriteback (Nat.succ fuel) env sf).2.m_metaInfo.m_sequence
    ∧ sf.m_metaInfo.m_sequence <
        (reKey (Nat.succ fuel) env sf cryptKey).2.m_metaInfo.m_sequence := by
  refine ⟨?_, clearAll_seq_inc fuel env sc hc1 hc2,
          fullWriteback_seq_inc fuel env sf hf1 hf2 hf3 hf4 hf5 hf6,
          reKey_seq_inc fuel env sf cryptKey hf2 hf7 hf8 hk hf1 hf3 hf4 hf5 hf6⟩
  have h1 : seqLow s ≤ seqLow (stepOp fuel env op s) := stepOp_seqLow fuel env op s
  have h2 : seqLow (stepOp fuel env op s) ≤
      (stepOp fuel env op s).m_metaInfo.m_sequence := Nat.min_le_left _ _
  have h3 : seqLow s = s.m_metaInfo.m_sequence := by
    unfold seqLow
    rw [hcoh hmv]
    omega
  omega

theorem claim2_witness :
    SeqCoherent stateB ∧ stateB.metaFileValid = true
    ∧ stateB.m_needLoadFromFile = false ∧ stateB.m_hasFullWriteback = false
    ∧ isFileValid stateB = true ∧ stateB.m_dic ≠ []
    ∧ (encodeMap stateB.m_dic).length + Fixed32Size ≤ stateB.m_size
    ∧ stateB.m_isInterProcess = false ∧ stateB.m_crypter = none
    ∧ ([3] : Bytes) ≠ []
    ∧ (stateB.m_metaInfo.m_sequence ≤
          (stepOp 5 envA (MMKVOp.setData [9] [2]) stateB).m_metaInfo.m_sequence
       ∧ stateB.m_metaInfo.m_sequence <
          (clearAll (Nat.succ 5) envA stateB).m_metaInfo.m_sequence
       ∧ stateB.m_metaInfo.m_sequence <
          (fullWriteback (Nat.succ 5) envA stateB).2.m_metaInfo.m_sequence
       ∧ stateB.m_metaInfo.m_sequence <
          (reKey (Nat.succ 5) envA stateB [3]).2.m_metaInfo.m_sequence) :=
  ⟨by decide, by decide, by decide, by decide, by decide, by decide, by decide,
   by decide, by decide, by decide,
   claim2_amended 5 envA (MMKVOp.setData [9] [2]) stateB stateB stateB [3]
     (by decide) (by decide) (by decide) (by decide) (by decide) (by decide)
     (by decide) (by decide) (by decide) (by decide) (by decide) (by decide)
     (by decide)⟩

end MMKVModel
